import Mathlib

/-!
Verification of the Replit-Project-Manager legal-corpus indexing pipeline.

The definitions below are shallow embeddings of the Python sources:
`govinfo_client.py`, `ucc_fetcher.py`, `ucc_processor.py`,
`uscode_processor.py`, `uscode_indexer.py`, `ucc_indexer.py`.
Machine time is modelled as exact rationals, stateful code as explicit
state passing, and fallible code as `Option`/`Except` values.
-/

namespace Spec2Proof

/-- Whitespace test matching Python `\s` / `str.strip` for the ASCII range. -/
def isPyWhitespace (c : Char) : Bool :=
  c = ' ' || c = '\t' || c = '\n' || c = '\r' || c = '\x0b' || c = '\x0c'

/-- The double-quote character. -/
def quoteD : Char := Char.ofNat 34

/-- The single-quote character. -/
def quoteS : Char := Char.ofNat 39

/-- ASCII letter, the effect of `[A-Z]` or `[a-z]` under `re.IGNORECASE`. -/
def isAsciiLetter (c : Char) : Bool := c.isUpper || c.isLower

/-- Word character for `\b` and `\w`.  Python's `re` is Unicode-aware; for
this development ASCII alphanumerics and the underscore are classified
exactly, and non-ASCII code points are treated as word characters except the
section sign — the only non-ASCII characters the modelled patterns mention
are the section sign (punctuation, non-word) and its byte-mangled Thai-letter
spelling (letters, word). -/
def isWordChar (c : Char) : Bool :=
  c.isAlphanum || c = '_' || (128 ≤ c.toNat && c ≠ '§')

/-- Python `str.strip()` on a character list. -/
def pyStrip (s : List Char) : List Char :=
  ((s.dropWhile isPyWhitespace).reverse.dropWhile isPyWhitespace).reverse

theorem dropWhile_length_le {α : Type} (p : α → Bool) :
    ∀ l : List α, (l.dropWhile p).length ≤ l.length
  | [] => le_refl _
  | c :: t => by
    rw [List.dropWhile]
    cases p c
    · exact le_refl _
    · exact le_trans (dropWhile_length_le p t) (Nat.le_succ _)

mutual
/-- Python `re.sub(r'\s+', ' ', s)`: collapse each whitespace run to one space. -/
def collapseWs : List Char → List Char
  | [] => []
  | c :: t =>
    if isPyWhitespace c then ' ' :: collapseWsSkip t
    else c :: collapseWs t

/-- Worker of `collapseWs`: drop the rest of the current whitespace run. -/
def collapseWsSkip : List Char → List Char
  | [] => []
  | c :: t =>
    if isPyWhitespace c then collapseWsSkip t
    else c :: collapseWs t
end

/-- Case-insensitive (when `ci`) literal prefix test, Python/ASCII lowercasing. -/
def litPref (ci : Bool) : List Char → List Char → Bool
  | [], _ => true
  | _ :: _, [] => false
  | a :: l, c :: s =>
    (if ci then a.toLower = c.toLower else a = c) && litPref ci l s

/-- Substring containment, Python's `needle in hay`. -/
def isSubstr (needle : List Char) : List Char → Bool
  | [] => litPref false needle []
  | c :: t => litPref false needle (c :: t) || isSubstr needle t

/-- Digit run to a natural number, Python `int` on a `\d+` match. -/
def digitsToNat (s : List Char) : Nat :=
  s.foldl (fun n c => n * 10 + (c.toNat - 48)) 0

/-- Python `str.lower()` (ASCII case mapping). -/
def pyToLower (s : String) : String := String.mk (s.data.map Char.toLower)

/-- Python string `<`: lexicographic comparison by code point. -/
def listCharLt : List Char → List Char → Bool
  | [], [] => false
  | [], _ :: _ => true
  | _ :: _, [] => false
  | a :: as, b :: bs =>
    if a.toNat < b.toNat then true
    else if b.toNat < a.toNat then false
    else listCharLt as bs

/-- Python string `<=`. -/
def strLeB (a b : String) : Bool := !(listCharLt b.data a.data)

/-- Insert into a sorted list, keeping existing elements first on ties. -/
def insertSorted (le : α → α → Bool) (x : α) : List α → List α
  | [] => [x]
  | y :: t => if le x y then x :: y :: t else y :: insertSorted le x t

/-- Python `sorted(...)`: a stable ascending sort (insertion sort). -/
def sortedPy (le : α → α → Bool) (l : List α) : List α :=
  l.foldr (insertSorted le) []

/-! ### A small backtracking regex engine

The Python sources drive all parsing through `re` patterns.  Each pattern used
by the code is translated into a sequence of `RItem`s; the engine below
reproduces Python's leftmost-match, greedy-with-backtracking semantics for the
constructs those patterns use.  A matcher state is the pair of the previously
consumed character (for `\b`) and the remaining input; each item maps a state
to the list of possible successor states in backtracking priority order. -/

/-- Kinds of starred subpatterns appearing in the sources:
`dashNumLet` is `(?:-\d+[a-z]?)` (with `re.IGNORECASE`, so the letter class is
any ASCII letter), `wsCapWord` is `(?:\s+[A-Z][a-z]+)` (case sensitive), and
`dotNum` is `(?:\.\d+)`. -/
inductive RepKind where
  | dashNumLet
  | wsCapWord
  | dotNum
deriving DecidableEq

/-- One item of a compiled regex sequence. -/
inductive RItem where
  /-- literal text, case-insensitively when `ci` -/
  | lit (ci : Bool) (l : List Char)
  /-- a single character from a class -/
  | cls (p : Char → Bool)
  /-- `X?` for a one-character class, greedy -/
  | optCls (p : Char → Bool)
  /-- `X+` over a character class, greedy -/
  | plus (p : Char → Bool)
  /-- `X*` over a character class, greedy -/
  | star (p : Char → Bool)
  /-- alternation of literals in pattern order, case-insensitively when `ci` -/
  | altLit (ci : Bool) (ls : List (List Char))
  /-- `(?:p+q+)?`, greedy -/
  | opt2 (p q : Char → Bool)
  /-- `(?:...)*` over one of the fixed subpatterns above, greedy -/
  | rep (k : RepKind)
  /-- `\b` word boundary, zero width -/
  | wb

/-- A matcher state: last consumed character (if any) and remaining input. -/
abbrev RState := Option Char × List Char

/-- States after consuming `k` characters for `k = m, m-1, ..., lo`,
in that (greedy-first) order. -/
def runStates (prev : Option Char) (s : List Char) (m lo : Nat) : List RState :=
  (List.range (m + 1 - lo)).map fun j =>
    let k := m - j
    (if k = 0 then prev else s.get? (k - 1), s.drop k)

/-- States after one greedy `p+`. -/
def plusStates (p : Char → Bool) (prev : Option Char) (s : List Char) : List RState :=
  runStates prev s (s.takeWhile p).length 1

/-- States after one repetition of a `RepKind` subpattern, priority order. -/
def repOnce (k : RepKind) (prev : Option Char) (s : List Char) : List RState :=
  match k with
  | .dashNumLet =>
    match s with
    | c :: t =>
      if c = '-' then
        (plusStates Char.isDigit (some c) t).flatMap fun st =>
          match st.2 with
          | d :: u => if isAsciiLetter d then [(some d, u), st] else [st]
          | [] => [st]
      else []
    | [] => []
  | .wsCapWord =>
    (plusStates isPyWhitespace prev s).flatMap fun st =>
      match st.2 with
      | d :: u => if d.isUpper then plusStates Char.isLower (some d) u else []
      | [] => []
  | .dotNum =>
    match s with
    | c :: t => if c = '.' then plusStates Char.isDigit (some c) t else []
    | [] => []

/-- States after `(?:...)* ` with at most `fuel` repetitions, greedy-first. -/
def repStates (k : RepKind) : Nat → Option Char → List Char → List RState
  | 0, prev, s => [(prev, s)]
  | fuel + 1, prev, s =>
    ((repOnce k prev s).flatMap fun st => repStates k fuel st.1 st.2) ++ [(prev, s)]

/-- Successor states of a single item, in backtracking priority order. -/
def itemStates : RItem → Option Char → List Char → List RState
  | .lit ci l, prev, s =>
    if litPref ci l s then
      [(if l.isEmpty then prev else s.get? (l.length - 1), s.drop l.length)]
    else []
  | .cls p, _, s =>
    match s with
    | c :: t => if p c then [(some c, t)] else []
    | [] => []
  | .optCls p, prev, s =>
    match s with
    | c :: t => if p c then [(some c, t), (prev, s)] else [(prev, s)]
    | [] => [(prev, s)]
  | .plus p, prev, s => plusStates p prev s
  | .star p, prev, s => runStates prev s (s.takeWhile p).length 0
  | .altLit ci ls, prev, s =>
    ls.filterMap fun l =>
      if litPref ci l s then
        some (if l.isEmpty then prev else s.get? (l.length - 1), s.drop l.length)
      else none
  | .opt2 p q, prev, s =>
    ((plusStates p prev s).flatMap fun st => plusStates q st.1 st.2) ++ [(prev, s)]
  | .rep k, prev, s => repStates k s.length prev s
  | .wb, prev, s =>
    let wl := match prev with | some c => isWordChar c | none => false
    let wr := match s with | c :: _ => isWordChar c | [] => false
    if wl ≠ wr then [(prev, s)] else []

/-- Successor states of an item sequence, lexicographic priority order. -/
def seqStates : List RItem → Option Char → List Char → List RState
  | [], prev, s => [(prev, s)]
  | i :: rest, prev, s =>
    (itemStates i prev s).flatMap fun st => seqStates rest st.1 st.2

/-- A compiled pattern: items before group 1, group 1, items between the
groups, and group 2 (either group may be empty for patterns with fewer
groups). -/
structure RPattern where
  pre : List RItem
  g1 : List RItem
  mid : List RItem
  g2 : List RItem
  post : List RItem := []

/-- A regex match: absolute span plus the matched text and the two groups. -/
structure RMatch where
  start : Nat
  stop : Nat
  whole : List Char
  g1 : List Char
  g2 : List Char
deriving DecidableEq

/-- Try to match `pat` at the start of `s` (with `prev` the character before
`s`), returning consumed length and captures of the first match in
backtracking order — Python's match-at-position semantics. -/
def matchAt (pat : RPattern) (prev : Option Char) (s : List Char) :
    Option (Nat × List Char × List Char × List Char) :=
  (seqStates pat.pre prev s).findSome? fun st1 =>
    (seqStates pat.g1 st1.1 st1.2).findSome? fun st2 =>
      (seqStates pat.mid st2.1 st2.2).findSome? fun st3 =>
        (seqStates pat.g2 st3.1 st3.2).findSome? fun st4 =>
          (seqStates pat.post st4.1 st4.2).findSome? fun st5 =>
            some (s.length - st5.2.length,
              s.take (s.length - st5.2.length),
              st1.2.take (st1.2.length - st2.2.length),
              st3.2.take (st3.2.length - st4.2.length))

/-- Worker for `finditer`: scan left to right, emitting non-overlapping
matches and resuming after each match, as Python's `re.finditer` does. -/
def finditerAux (pat : RPattern) : Nat → Nat → Option Char → List Char → List RMatch
  | 0, _, _, _ => []
  | fuel + 1, pos, prev, s =>
    match matchAt pat prev s with
    | some (len, whole, g1, g2) =>
      let adv := max len 1
      { start := pos, stop := pos + len, whole := whole, g1 := g1, g2 := g2 } ::
        finditerAux pat fuel (pos + adv) (s.get? (adv - 1)) (s.drop adv)
    | none =>
      match s with
      | [] => []
      | c :: t => finditerAux pat fuel (pos + 1) (some c) t

/-- All matches of `pat` in `s`, Python `re.finditer` / `re.findall`. -/
def finditer (pat : RPattern) (s : List Char) : List RMatch :=
  finditerAux pat (s.length + 1) 0 none s

/-- First match of `pat` in `s`, Python `re.search`. -/
def reSearch (pat : RPattern) (s : List Char) : Option RMatch :=
  (finditer pat s).head?

/-! ### `ucc_processor.py` — definition extraction (`UCCProcessor._extract_definitions`) -/

namespace UCCProcessor

/-- `re.compile(r'"([^"]+)"\s+means\s+([^.]+\.)', re.IGNORECASE)`. -/
def defPat1 : RPattern where
  pre := [.lit true [quoteD]]
  g1 := [.plus (fun c => c ≠ quoteD)]
  mid := [.lit true [quoteD], .plus isPyWhitespace, .lit true "means".toList,
    .plus isPyWhitespace]
  g2 := [.plus (fun c => c ≠ '.'), .cls (fun c => c = '.')]

/-- `re.compile(r'The\s+term\s+"([^"]+)"\s+(?:means|includes)\s+([^.]+\.)', re.IGNORECASE)`. -/
def defPat2 : RPattern where
  pre := [.lit true "The".toList, .plus isPyWhitespace, .lit true "term".toList,
    .plus isPyWhitespace, .lit true [quoteD]]
  g1 := [.plus (fun c => c ≠ quoteD)]
  mid := [.lit true [quoteD], .plus isPyWhitespace,
    .altLit true ["means".toList, "includes".toList], .plus isPyWhitespace]
  g2 := [.plus (fun c => c ≠ '.'), .cls (fun c => c = '.')]

/-- `re.compile(r'([A-Z][a-z\s]+)\s+means\s+([^.]+\.)', re.IGNORECASE)` — with
`re.IGNORECASE` the classes `[A-Z]` and `[a-z]` both match any ASCII letter. -/
def defPat3 : RPattern where
  pre := []
  g1 := [.cls isAsciiLetter, .plus (fun c => isAsciiLetter c || isPyWhitespace c)]
  mid := [.plus isPyWhitespace, .lit true "means".toList, .plus isPyWhitespace]
  g2 := [.plus (fun c => c ≠ '.'), .cls (fun c => c = '.')]

/-- `re.compile(r'For\s+purposes\s+of\s+this\s+(?:Article|section),\s*"([^"]+)"\s+means\s+([^.]+\.)', re.IGNORECASE)`. -/
def defPat4 : RPattern where
  pre := [.lit true "For".toList, .plus isPyWhitespace, .lit true "purposes".toList,
    .plus isPyWhitespace, .lit true "of".toList, .plus isPyWhitespace,
    .lit true "this".toList, .plus isPyWhitespace,
    .altLit true ["Article".toList, "section".toList], .lit true [','],
    .star isPyWhitespace, .lit true [quoteD]]
  g1 := [.plus (fun c => c ≠ quoteD)]
  mid := [.lit true [quoteD], .plus isPyWhitespace, .lit true "means".toList,
    .plus isPyWhitespace]
  g2 := [.plus (fun c => c ≠ '.'), .cls (fun c => c = '.')]

/-- `re.compile(r'In\s+this\s+Article(?:\s+[\d-]+)?:\s*\([a-z]\)\s+"([^"]+)"\s+means\s+([^.]+\.)', re.IGNORECASE)`. -/
def defPat5 : RPattern where
  pre := [.lit true "In".toList, .plus isPyWhitespace, .lit true "this".toList,
    .plus isPyWhitespace, .lit true "Article".toList,
    .opt2 isPyWhitespace (fun c => c.isDigit || c = '-'), .lit true [':'],
    .star isPyWhitespace, .lit true ['('], .cls isAsciiLetter, .lit true [')'],
    .plus isPyWhitespace, .lit true [quoteD]]
  g1 := [.plus (fun c => c ≠ quoteD)]
  mid := [.lit true [quoteD], .plus isPyWhitespace, .lit true "means".toList,
    .plus isPyWhitespace]
  g2 := [.plus (fun c => c ≠ '.'), .cls (fun c => c = '.')]

/-- The ordered pattern table `self.definition_patterns`. -/
def definition_patterns : List RPattern := [defPat1, defPat2, defPat3, defPat4, defPat5]

/-- `re.sub(r'^["\']|["\']$', '', term)`: remove one leading quote character,
then one trailing quote character from what remains. -/
def stripQuotesPy (s : List Char) : List Char :=
  let s1 := match s with
    | c :: t => if c = quoteD || c = quoteS then t else s
    | [] => []
  match s1.getLast? with
  | some c => if c = quoteD || c = quoteS then s1.dropLast else s1
  | none => s1

/-- One extracted definition record.  The `alternative_terms` entry of the
Python dict (`UCCProcessor._find_alternative_terms`) is not modelled; it is an
independent field of the stored record and no verified property mentions it. -/
structure UCCDefinition where
  term : String
  definition : String
  citation : String
  article_number : String
  scope : String
deriving DecidableEq

/-- `UCCProcessor._determine_definition_scope` (the `term` argument is unused
by the Python code's checks, which search the whole section content). -/
def determine_definition_scope (content : String) (_term : String) : String :=
  let tc := (pyToLower content).toList
  if isSubstr "in this article".toList tc ||
      isSubstr "for purposes of this article".toList tc then "article"
  else if isSubstr "in this section".toList tc ||
      isSubstr "for purposes of this section".toList tc then "section"
  else "general"

/-- Drop later definitions whose case-folded term was already seen
(the `seen_terms` loop at the end of `_extract_definitions`). -/
def dedupByTerm : List UCCDefinition → List String → List UCCDefinition
  | [], _ => []
  | d :: rest, seen =>
    let key := pyToLower d.term
    if seen.contains key then dedupByTerm rest seen
    else d :: dedupByTerm rest (key :: seen)

/-- `UCCProcessor._extract_definitions`: run every pattern over the raw
content, clean each candidate, keep it only if the term is longer than 2 and
the definition longer than 10 characters, then deduplicate case-folded terms
keeping the first occurrence.  (Every pattern has exactly two groups, so the
Python guard `len(match.groups()) >= 2` always holds.) -/
def extract_definitions (content citation article_number : String) : List UCCDefinition :=
  let cs := content.toList
  let candidates := definition_patterns.flatMap fun pat =>
    (finditer pat cs).filterMap fun m =>
      let term := stripQuotesPy (pyStrip m.g1)
      let defn := pyStrip (collapseWs (pyStrip m.g2))
      if 2 < term.length ∧ 10 < defn.length then
        some { term := String.mk term, definition := String.mk defn,
               citation := citation, article_number := article_number,
               scope := determine_definition_scope content (String.mk term) }
      else none
  dedupByTerm candidates []

/-- Python `str.splitlines()` for the ASCII line boundaries
(`\n`, `\r`, `\r\n`): no trailing empty line for a trailing terminator. -/
def splitLinesAux : List Char → List Char → List (List Char)
  | acc, [] => [acc.reverse]
  | acc, '\r' :: '\n' :: t =>
    acc.reverse :: (if t.isEmpty then [] else splitLinesAux [] t)
  | acc, '\r' :: t =>
    acc.reverse :: (if t.isEmpty then [] else splitLinesAux [] t)
  | acc, '\n' :: t =>
    acc.reverse :: (if t.isEmpty then [] else splitLinesAux [] t)
  | acc, c :: t => splitLinesAux (c :: acc) t

/-- Python `str.splitlines()` (ASCII boundaries). -/
def splitLinesPy (s : List Char) : List (List Char) :=
  if s.isEmpty then [] else splitLinesAux [] s

mutual
/-- Python `str.split()` with no argument: split on whitespace runs,
discarding empty fragments. -/
def pyWords : List Char → List (List Char)
  | [] => []
  | c :: t =>
    if isPyWhitespace c then pyWords t
    else pyWordsIn [c] t

/-- Worker of `pyWords`: inside a word whose reversed prefix is `acc`. -/
def pyWordsIn (acc : List Char) : List Char → List (List Char)
  | [] => [acc.reverse]
  | c :: t =>
    if isPyWhitespace c then acc.reverse :: pyWords t
    else pyWordsIn (c :: acc) t
end

/-- `UCCProcessor._clean_text_content`.  The composite of
`BeautifulSoup(content, 'html.parser')`, removal of `script`/`style`
subtrees, and `get_text()` is a fixed function of the input string; it is
taken as the parameter `parse`.  The subsequent line splitting, stripping,
joining and whitespace collapsing follow the source. -/
def clean_text_content (parse : String → String) (content : String) : String :=
  if content.isEmpty then ""
  else
    let text := (parse content).toList
    let lines := (splitLinesPy text).filterMap fun l =>
      let s := pyStrip l
      if s.isEmpty then none else some s
    let joined := (lines.intersperse ['\n']).flatten
    String.mk (pyStrip (collapseWs joined))

/-- One subsection dict as passed through `_process_subsections`
(`parent_subsection_id` is always `None` for the fetcher's dicts and is
omitted). -/
structure SubDict where
  number : String
  content : String
  level : Nat
  order : Nat
deriving DecidableEq

/-- `UCCProcessor._process_subsections`. -/
def process_subsections (parse : String → String) (subs : List SubDict) : List SubDict :=
  subs.map fun s => { s with content := clean_text_content parse s.content }

/-- `self.commercial_keywords`, in dict (insertion) order. -/
def commercial_keywords : List (String × List String) :=
  [("secured_transactions",
    ["security interest", "security agreement", "financing statement", "collateral",
     "debtor", "secured party", "purchase money security interest", "PMSI",
     "perfection", "attachment", "priority", "default", "foreclosure",
     "deposit account", "inventory", "equipment", "accounts receivable",
     "chattel paper", "instruments", "documents", "general intangibles"]),
   ("sales",
    ["contract of sale", "buyer", "seller", "goods", "delivery",
     "acceptance", "rejection", "revocation", "breach", "cover",
     "warranty", "merchantability", "fitness for purpose",
     "tender", "conforming goods", "installment contract",
     "battle of the forms", "firm offer", "requirements contract"]),
   ("leases",
    ["lease agreement", "lessor", "lessee", "finance lease",
     "consumer lease", "lease term", "rental", "residual value",
     "casualty to goods", "sublease", "assignment of lease"]),
   ("negotiable_instruments",
    ["negotiable instrument", "promissory note", "check", "draft",
     "payee", "drawer", "drawee", "endorsement", "bearer",
     "holder in due course", "negotiation", "dishonor",
     "accommodation party", "guarantee", "indorsement"]),
   ("bank_deposits",
    ["bank", "customer", "deposit account", "check collection",
     "provisional settlement", "final payment", "midnight deadline",
     "collecting bank", "depositary bank", "payor bank",
     "presentment", "notice of dishonor", "protest"]),
   ("funds_transfers",
    ["payment order", "originator", "beneficiary", "receiving bank",
     "sender", "intermediary bank", "fedwire", "ACH", "SWIFT",
     "funds transfer", "execution", "acceptance", "cancellation"]),
   ("letters_of_credit",
    ["letter of credit", "issuer", "applicant", "beneficiary",
     "advising bank", "confirming bank", "documentary credit",
     "standby letter of credit", "sight draft", "time draft",
     "presentation", "honor", "wrongful dishonor"]),
   ("warehouse_receipts",
    ["warehouse receipt", "bill of lading", "document of title",
     "warehouseman", "carrier", "consignor", "consignee",
     "bailment", "negotiable document", "delivery order"]),
   ("investment_securities",
    ["security", "certificated security", "uncertificated security",
     "security entitlement", "securities account", "entitlement holder",
     "securities intermediary", "protected purchaser", "adverse claim",
     "instruction", "entitlement order"]),
   ("bulk_transfers",
    ["bulk transfer", "bulk sale", "transferor", "transferee",
     "creditor", "notice to creditors", "schedule of property",
     "list of creditors"]),
   ("controllable_records",
    ["controllable electronic record", "qualifying purchaser",
     "control", "copy", "authoritative copy", "tamper evident"])]

/-- `UCCProcessor._extract_commercial_terms`:
case-insensitive substring hits, deduplicated and sorted. -/
def extract_commercial_terms (content : String) : List String :=
  let cl := (pyToLower content).toList
  let found := commercial_keywords.flatMap fun cat =>
    cat.2.filter fun term => isSubstr (pyToLower term).toList cl
  sortedPy strLeB found.dedup

/-- The `type_keywords` table of `_classify_transaction_types`, in dict
order. -/
def type_keywords : List (String × List String) :=
  [("sales", ["sale", "buyer", "seller", "goods", "contract of sale"]),
   ("leases", ["lease", "lessor", "lessee", "rental"]),
   ("secured_transactions", ["security interest", "collateral", "financing statement"]),
   ("negotiable_instruments", ["check", "note", "draft", "negotiable instrument"]),
   ("bank_deposits", ["bank", "deposit", "collection", "check collection"]),
   ("funds_transfers", ["wire transfer", "payment order", "funds transfer"]),
   ("letters_of_credit", ["letter of credit", "documentary credit"]),
   ("warehouse_receipts", ["warehouse receipt", "bill of lading"]),
   ("investment_securities", ["security", "stock", "bond", "investment"]),
   ("bulk_transfers", ["bulk transfer", "bulk sale"]),
   ("controllable_records", ["controllable electronic record", "electronic record"])]

/-- `UCCProcessor._classify_transaction_types`. -/
def classify_transaction_types (content : String) : List String :=
  let cl := (pyToLower content).toList
  (type_keywords.filter fun cat =>
    cat.2.any fun k => isSubstr k.toList cl).map (·.1)

/-- The `legal_terms` list of `_extract_keywords`. -/
def legal_terms : List String :=
  ["contract", "agreement", "party", "obligation", "right", "duty",
   "breach", "remedy", "damages", "liability", "enforce", "void",
   "voidable", "valid", "invalid", "notice", "consent", "authorize"]

/-- `re.findall(r'\b[A-Z][a-z]+(?:\s+[A-Z][a-z]+)*\b', content)` —
capitalized phrases, case sensitive. -/
def capPhrasePattern : RPattern where
  pre := [.wb]
  g1 := [.cls Char.isUpper, .plus Char.isLower, .rep .wsCapWord]
  mid := [.wb]
  g2 := []

/-- `UCCProcessor._extract_keywords`: commercial terms, then present legal
terms, then lowered capitalized phrases of at most three words and length
above three; deduplicated, length-filtered and sorted. -/
def extract_keywords (content : String) : List String :=
  let cl := (pyToLower content).toList
  let phrases := (finditer capPhrasePattern content.toList).filterMap fun m =>
    if (pyWords m.g1).length ≤ 3 ∧ 3 < m.g1.length then
      some (pyToLower (String.mk m.g1))
    else none
  let ks := extract_commercial_terms content
    ++ legal_terms.filter (fun t => isSubstr t.toList cl)
    ++ phrases
  sortedPy strLeB (ks.dedup.filter fun k => 2 < k.length ∧ k.length < 50)

/-- The `topic_classifiers` table, in dict order. -/
def topic_classifiers : List (String × List String) :=
  [("contract_formation",
    ["offer", "acceptance", "consideration", "contract formation",
     "battle of forms", "firm offer", "modification"]),
   ("performance",
    ["performance", "tender", "delivery", "installment",
     "substantial performance", "cure", "rejection"]),
   ("breach_remedies",
    ["breach", "damages", "cover", "incidental damages",
     "consequential damages", "liquidated damages", "specific performance"]),
   ("warranties",
    ["warranty", "merchantability", "fitness for purpose",
     "express warranty", "implied warranty", "disclaimer"]),
   ("risk_of_loss",
    ["risk of loss", "title", "FOB", "CIF", "delivery terms",
     "shipping terms", "carrier", "casualty"]),
   ("credit_protection",
    ["security interest", "perfection", "priority", "attachment",
     "financing statement", "lien", "pledge"]),
   ("payment_systems",
    ["payment", "check", "electronic transfer", "credit card",
     "bank", "settlement", "clearing"]),
   ("commercial_paper",
    ["negotiable instrument", "holder in due course", "negotiation",
     "endorsement", "dishonor", "liability"])]

/-- `UCCProcessor._classify_topics`. -/
def classify_topics (content : String) : List String :=
  let cl := (pyToLower content).toList
  (topic_classifiers.filter fun cat =>
    cat.2.any fun k => isSubstr (pyToLower k).toList cl).map (·.1)

/-- One extracted cross-reference dict; keys the Python code leaves out of a
given dict shape are `none`. -/
structure CrossReference where
  reference_type : String
  target_citation : Option String
  target_article : Option String
  target_section : Option String
  external_reference : Option String
  context : String
deriving DecidableEq

/-- `self.citation_patterns['ucc_section']`:
`\bUCC\s+(\d+[A-Z]?)-(\d+[a-z]?(?:-\d+[a-z]?)*)\b`, `re.IGNORECASE`. -/
def uccSectionPat : RPattern where
  pre := [.wb, .lit true "UCC".toList, .plus isPyWhitespace]
  g1 := [.plus Char.isDigit, .optCls isAsciiLetter]
  mid := [.lit true ['-']]
  g2 := [.plus Char.isDigit, .optCls isAsciiLetter, .rep .dashNumLet]
  post := [.wb]

/-- `self.citation_patterns['article_ref']`:
`\bArticle\s+(\d+[A-Z]?)\b`, `re.IGNORECASE`. -/
def articleRefPat : RPattern where
  pre := [.wb, .lit true "Article".toList, .plus isPyWhitespace]
  g1 := [.plus Char.isDigit, .optCls isAsciiLetter]
  mid := []
  g2 := []
  post := [.wb]

/-- External pattern `\b(\d+)\s+U\.?S\.?C\.?\s+§?\s*(\d+[a-z]?(?:-\d+[a-z]?)*)`,
`re.IGNORECASE`. -/
def uscExtPat : RPattern where
  pre := [.wb]
  g1 := [.plus Char.isDigit]
  mid := [.plus isPyWhitespace, .lit true ['U'], .optCls (· = '.'), .lit true ['S'],
    .optCls (· = '.'), .lit true ['C'], .optCls (· = '.'), .plus isPyWhitespace,
    .optCls (· = '§'), .star isPyWhitespace]
  g2 := [.plus Char.isDigit, .optCls isAsciiLetter, .rep .dashNumLet]

/-- External pattern `\b(\d+)\s+C\.?F\.?R\.?\s+§?\s*(\d+(?:\.\d+)*)`,
`re.IGNORECASE`. -/
def cfrExtPat : RPattern where
  pre := [.wb]
  g1 := [.plus Char.isDigit]
  mid := [.plus isPyWhitespace, .lit true ['C'], .optCls (· = '.'), .lit true ['F'],
    .optCls (· = '.'), .lit true ['R'], .optCls (· = '.'), .plus isPyWhitespace,
    .optCls (· = '§'), .star isPyWhitespace]
  g2 := [.plus Char.isDigit, .rep .dotNum]

/-- External pattern `\bRestatement\s+\(([^)]+)\)\s+§?\s*(\d+)`,
`re.IGNORECASE`. -/
def restatementPat : RPattern where
  pre := [.wb, .lit true "Restatement".toList, .plus isPyWhitespace, .lit true ['(']]
  g1 := [.plus (fun c => c ≠ ')')]
  mid := [.lit true [')'], .plus isPyWhitespace, .optCls (· = '§'), .star isPyWhitespace]
  g2 := [.plus Char.isDigit]

/-- `UCCProcessor._extract_reference_context` with the default 100-character
radius: clamp, slice, strip, collapse whitespace. -/
def extract_reference_context (cs : List Char) (start stop : Nat) : String :=
  let a := start - 100
  let b := min cs.length (stop + 100)
  String.mk (collapseWs (pyStrip ((cs.drop a).take (b - a))))

/-- `UCCProcessor._extract_cross_references`.  The `ucc_subsection`,
`section_ref`, `subsection_ref` and `part_ref` patterns are iterated by the
source loop but their loop body appends nothing, so they contribute no
records. -/
def extract_cross_references (content : String) : List CrossReference :=
  let cs := content.toList
  let uccRefs := (finditer uccSectionPat cs).map fun m =>
    { reference_type := "ucc_section",
      target_citation := some ("UCC " ++ String.mk m.g1 ++ "-" ++ String.mk m.g2),
      target_article := some (String.mk m.g1),
      target_section := some (String.mk m.g2),
      external_reference := none,
      context := extract_reference_context cs m.start m.stop : CrossReference }
  let artRefs := (finditer articleRefPat cs).map fun m =>
    { reference_type := "ucc_article",
      target_citation := none,
      target_article := some (String.mk m.g1),
      target_section := none,
      external_reference := none,
      context := extract_reference_context cs m.start m.stop : CrossReference }
  let extPats : List (RPattern × String) :=
    [(uscExtPat, "usc"), (cfrExtPat, "cfr"), (restatementPat, "restatement")]
  let extRefs := extPats.flatMap fun pr =>
    (finditer pr.1 cs).map fun m =>
      { reference_type := pr.2,
        target_citation := none, target_article := none, target_section := none,
        external_reference := some (String.mk m.whole),
        context := extract_reference_context cs m.start m.stop : CrossReference }
  uccRefs ++ artRefs ++ extRefs

/-- The raw section dict handed to `process_section_content` (the fields of
`asdict(UCCSectionInfo)` that the processor reads). -/
structure SectionData where
  number : String
  citation : String
  heading : String
  content : String
  html_content : String
  article_number : String
  part_number : Option String
  subsections : List SubDict
  official_comment : Option String
  source_url : Option String
deriving DecidableEq

/-- The `ProcessedUCCSection` dataclass (`last_modified` is the
`datetime.now()` reading taken while building the record). -/
structure ProcessedUCCSection where
  number : String
  citation : String
  heading : String
  content : String
  clean_text : String
  html_content : String
  article_number : String
  part_number : Option String
  subsections : List SubDict
  definitions : List UCCDefinition
  cross_references : List CrossReference
  commercial_terms : List String
  transaction_types : List String
  keywords : List String
  topics : List String
  official_comment : Option String
  last_modified : ℚ
deriving DecidableEq

/-- `UCCProcessor.process_section_content`: pass the identifying fields
through and derive clean text, subsections, definitions, cross-references,
commercial terms, transaction types, keywords and topics from the raw
content; a truthy official comment is cleaned.  `now` is the
`datetime.now()` reading. -/
def process_section_content (parse : String → String) (sd : SectionData) (now : ℚ) :
    ProcessedUCCSection :=
  { number := sd.number
    citation := sd.citation
    heading := sd.heading
    content := sd.content
    clean_text := clean_text_content parse sd.content
    html_content := sd.html_content
    article_number := sd.article_number
    part_number := sd.part_number
    subsections := process_subsections parse sd.subsections
    definitions := extract_definitions sd.content sd.citation sd.article_number
    cross_references := extract_cross_references sd.content
    commercial_terms := extract_commercial_terms sd.content
    transaction_types := classify_transaction_types sd.content
    keywords := extract_keywords sd.content
    topics := classify_topics sd.content
    official_comment :=
      match sd.official_comment with
      | some c => if c.isEmpty then some c else some (clean_text_content parse c)
      | none => none
    last_modified := now }

/-- The per-section loop of `UCCProcessor.process_article_content`
(lines 232–238): each section's processing outcome is tried in turn; a raise
is logged and skipped and the loop continues, so the surviving sections are
exactly the successful ones, in order. -/
def process_article_sections (results : List (Except String α)) : List α :=
  match results with
  | [] => []
  | .ok s :: rest => s :: process_article_sections rest
  | .error _ :: rest => process_article_sections rest

end UCCProcessor

/-! ### `ucc_fetcher.py` — subsection extraction (`UCCFetcher._extract_subsections`) -/

namespace UCCFetcher

/-- `r'\(([a-z])\)'` — lettered markers, nesting level 1. -/
def subPatLetter : RPattern where
  pre := [.lit false ['(']]
  g1 := [.cls Char.isLower]
  mid := [.lit false [')']]
  g2 := []

/-- `r'\((\d+)\)'` — numeric markers, nesting level 2. -/
def subPatDigit : RPattern where
  pre := [.lit false ['(']]
  g1 := [.plus Char.isDigit]
  mid := [.lit false [')']]
  g2 := []

/-- `r'\(([ivx]+)\)'` — lower-roman markers, nesting level 3. -/
def subPatRoman : RPattern where
  pre := [.lit false ['(']]
  g1 := [.plus (fun c => c = 'i' || c = 'v' || c = 'x')]
  mid := [.lit false [')']]
  g2 := []

/-- One extracted subsection dict.  `start` keeps the Python local variable
`start_pos` (the match offset), which fixes the marker's textual position. -/
structure SubsectionEntry where
  number : String
  content : String
  level : Nat
  order : Nat
  start : Nat
deriving DecidableEq

/-- The body of the `_extract_subsections` match loop: skip the match when
the text from the marker to the next line break is empty, otherwise append
an entry carrying the next order index (`len(subsections) + 1`). -/
def subEntryStep (cs : List Char) (lv : Nat) (acc : List SubsectionEntry) (m : RMatch) :
    List SubsectionEntry :=
  let firstLine := (cs.drop m.start).takeWhile (fun c => c ≠ '\n')
  if firstLine.isEmpty then acc
  else acc ++ [{ number := String.mk ('(' :: m.g1 ++ [')']),
                 content := String.mk (pyStrip firstLine),
                 level := lv, order := acc.length + 1,
                 start := m.start }]

/-- `UCCFetcher._extract_subsections`, applied to the element's text: for each
marker family in turn, for each match, take the text from the marker to the
next line break, and append an entry with the next order index. -/
def extract_subsections (content_text : String) : List SubsectionEntry :=
  let cs := content_text.toList
  let pats : List (Nat × RPattern) :=
    [(1, subPatLetter), (2, subPatDigit), (3, subPatRoman)]
  pats.foldl (fun acc lp => (finditer lp.2 cs).foldl (subEntryStep cs lp.1) acc) []

/-- Closed form of one family's pass of the match loop, numbering new
entries from `k + 1` (used only to reason about `extract_subsections`). -/
def subEntriesOf (cs : List Char) (lv : Nat) : Nat → List RMatch → List SubsectionEntry
  | _, [] => []
  | k, m :: rest =>
    let firstLine := (cs.drop m.start).takeWhile (fun c => c ≠ '\n')
    if firstLine.isEmpty then subEntriesOf cs lv k rest
    else { number := String.mk ('(' :: m.g1 ++ [')']),
           content := String.mk (pyStrip firstLine),
           level := lv, order := k + 1,
           start := m.start } :: subEntriesOf cs lv (k + 1) rest

/-- One position's attempt of
`re.search(r'/ucc/(\d+[A-Z]?)/\1-(\d+)', section_url)` (ucc_fetcher.py,
line 390).  After the literal `/ucc/`, group 1 is a maximal digit run
optionally extended by one capital (the greedy alternative first); a shorter
digit run cannot match, because the following character would be a digit
where `/` is required.  The backreference requires the same article text
again, then `-` and the section digits. -/
def uccUrlMatchAt (s : List Char) : Option (List Char × List Char) :=
  if litPref false "/ucc/".toList s then
    let rest := s.drop 5
    let d := rest.takeWhile Char.isDigit
    if d.isEmpty then none
    else
      let tryArt : List Char → Option (List Char × List Char) := fun art =>
        let r2 := rest.drop art.length
        if litPref false ('/' :: art ++ ['-']) r2 then
          let sec := (r2.drop (art.length + 2)).takeWhile Char.isDigit
          if sec.isEmpty then none else some (art, sec)
        else none
      match (rest.drop d.length).head? with
      | some c =>
        if c.isUpper then
          match tryArt (d ++ [c]) with
          | some r => some r
          | none => tryArt d
        else tryArt d
      | none => tryArt d
  else none

/-- The article/section pair parsed from a Cornell section URL
(`re.search`, leftmost position first). -/
def parse_section_url (url : String) : Option (String × String) :=
  let cs := url.toList
  ((List.range (cs.length + 1)).findSome? fun i => uccUrlMatchAt (cs.drop i)).map
    fun p => (String.mk p.1, String.mk p.2)

/-- The citation built by `UCCFetcher.fetch_section` (line 396):
`f"UCC {article_number}-{section_number}"`. -/
def uccCitation (article sec : String) : String :=
  "UCC " ++ article ++ "-" ++ sec

/-- The citation `fetch_section` assigns for a given URL: the fetch raises
(`UCCFetchError`) when the URL does not parse, otherwise the citation is
the pure image of the parsed pair. -/
def fetch_section_citation (url : String) : Option String :=
  (parse_section_url url).map fun p => uccCitation p.1 p.2

/-- First index at which `needle` occurs in `s`, scanning left to right. -/
def findSubIdx (needle s : List Char) : Option Nat :=
  (List.range (s.length + 1)).find? fun i => litPref false needle (s.drop i)

/-- Formalizes the claim hypothesis that the three markers occur in `s` in
the given textual order: an occurrence of `a` strictly before an occurrence
of `b` strictly before an occurrence of `c` (checked greedily, which is
complete for this monotone property). -/
def containsInTextualOrder (s a b c : String) : Bool :=
  let cs := s.toList
  match findSubIdx a.toList cs with
  | none => false
  | some i =>
    match (findSubIdx b.toList (cs.drop (i + 1))).map (· + i + 1) with
    | none => false
    | some j =>
      match findSubIdx c.toList (cs.drop (j + 1)) with
      | none => false
      | some _ => true

end UCCFetcher

/-! ### The sliding-window rate limiter

`GovInfoClient._enforce_rate_limit` (govinfo_client.py, lines 138–157) and
`UCCFetcher._enforce_rate_limit` (ucc_fetcher.py, lines 173–192) have the same
body up to the configured ceiling and period, so they are embedded once,
parameterised by those constants.  Machine time (`time.time()` floats) is
modelled by exact rationals; the mutual-exclusion lock makes each call atomic,
so an execution history is a sequence of calls. -/

/-- One call of `_enforce_rate_limit`.  `times` is `self._request_times`,
`now` the value of `time.time()` at entry, and `slack ≥ 0` how much longer
than requested `asyncio.sleep` actually slept (it sleeps at least its
argument).  Returns the new `self._request_times`, the timestamp recorded for
this request, and whether the call slept.  The `[]` branch under the ceiling
test corresponds to `times[0]` raising `IndexError`; it is unreachable
whenever the ceiling is positive. -/
def enforce_rate_limit (calls : Nat) (period : ℚ) (times : List ℚ) (now slack : ℚ) :
    List ℚ × ℚ × Bool :=
  let ts := times.filter (fun t => now - t < period)
  if calls ≤ ts.length then
    match ts with
    | t0 :: _ =>
      let sleepTime := period - (now - t0) + 1
      if 0 < sleepTime then
        let now2 := now + sleepTime + slack
        let ts2 := ts.filter (fun t => now2 - t < period)
        (ts2 ++ [now2], now2, true)
      else (ts ++ [now], now, false)
    | [] => (ts ++ [now], now, false)
  else (ts ++ [now], now, false)

/-- The request timestamps issued by a sequence of `_enforce_rate_limit`
calls, each described by its entry time and its sleep slack. -/
def rl_issues (calls : Nat) (period : ℚ) : List ℚ → List (ℚ × ℚ) → List ℚ
  | _, [] => []
  | times, c :: rest =>
    let r := enforce_rate_limit calls period times c.1 c.2
    r.2.1 :: rl_issues calls period r.1 rest

/-- A call sequence is valid when every call's entry clock reading is at
least the previous call's recorded issue time (clocks do not go backwards
across the serialised calls) and every sleep slack is nonnegative. -/
def RLValid (calls : Nat) (period : ℚ) : List ℚ → ℚ → List (ℚ × ℚ) → Prop
  | _, _, [] => True
  | times, ready, c :: rest =>
    ready ≤ c.1 ∧ 0 ≤ c.2 ∧
      RLValid calls period (enforce_rate_limit calls period times c.1 c.2).1
        (enforce_rate_limit calls period times c.1 c.2).2.1 rest

/-- Membership of a timestamp in the half-open window `[T, T + period)`. -/
def inWindow (T period u : ℚ) : Bool := T ≤ u ∧ u < T + period

/-! ### `govinfo_client.py` — TTL cache and request dispatch (`GovInfoClient._make_request`) -/

namespace GovInfoClient

/-- `RATE_LIMIT_CALLS = 1000` (1000 calls per hour). -/
def RATE_LIMIT_CALLS : Nat := 1000

/-- `RATE_LIMIT_PERIOD = 3600` seconds. -/
def RATE_LIMIT_PERIOD : ℚ := 3600

/-- `self.cache_duration = timedelta(hours=1)`, in seconds. -/
def cache_duration : ℚ := 3600

/-- The network's answer to one GET: a transport failure
(`httpx.RequestError`) or a status code with content type and body. -/
inductive GIResponse where
  | transport
  | status (code : Nat) (ctJson : Bool) (body : String)
deriving DecidableEq

/-- The typed errors `_make_request` can raise. -/
inductive GIError where
  | rateLimitExceeded
  | apiError (msg : String) (code : Option Nat)
deriving DecidableEq

/-- A cached/returned datum: parsed JSON, or the XML wrapper dict
`{"content": ..., "content_type": "xml"}`. -/
inductive GIData where
  | json (body : String)
  | xml (content : String)
deriving DecidableEq

/-- The client's mutable state: `self._cache`, `self._cache_ttl` (expiry
instants) and `self._request_times`.  The dicts are association lists whose
first binding wins, so assignment prepends. -/
structure GIState where
  cache : List (String × GIData)
  cacheTtl : List (String × ℚ)
  request_times : List ℚ
deriving DecidableEq

/-- `GovInfoClient._is_cache_valid`. -/
def is_cache_valid (st : GIState) (key : String) (now : ℚ) : Bool :=
  match st.cacheTtl.lookup key with
  | some expiry => now < expiry
  | none => false

/-- `GovInfoClient._cache_response`, stamped at clock reading `now`. -/
def cache_response (st : GIState) (key : String) (data : GIData) (now : ℚ) : GIState :=
  { st with cache := (key, data) :: st.cache,
            cacheTtl := (key, now + cache_duration) :: st.cacheTtl }

/-- `GovInfoClient._make_request` for the cache key `key` (the key is the
deterministic `_get_cache_key` image of endpoint and sorted query
parameters).  `now` is the clock at entry, `slack` the rate-limit sleep
slack, `resp` the network's answer if a request is issued.  Returns the
call's result, the new client state, and whether a network request was
issued.  A valid TTL entry always has a cached datum (the two dicts are
written together), so the `getD` default is never read. -/
def make_request (st : GIState) (key : String) (use_cache : Bool) (now slack : ℚ)
    (resp : GIResponse) : Except GIError GIData × GIState × Bool :=
  if use_cache && is_cache_valid st key now then
    (.ok ((st.cache.lookup key).getD (.json "")), st, false)
  else
    let rl := enforce_rate_limit RATE_LIMIT_CALLS RATE_LIMIT_PERIOD st.request_times now slack
    let st1 : GIState := { st with request_times := rl.1 }
    match resp with
    | .transport => (.error (.apiError "Request error" none), st1, true)
    | .status code ctJson body =>
      if code = 429 then (.error .rateLimitExceeded, st1, true)
      else if code = 401 then
        (.error (.apiError "Unauthorized - check API key" (some 401)), st1, true)
      else if code = 404 then
        (.error (.apiError "Resource not found" (some 404)), st1, true)
      else if 400 ≤ code then (.error (.apiError "HTTP error" (some code)), st1, true)
      else
        let data := if ctJson then GIData.json body else GIData.xml body
        let st2 := if use_cache then cache_response st1 key data rl.2.1 else st1
        (.ok data, st2, true)

end GovInfoClient

/-! ### `ucc_fetcher.py` — TTL cache and page fetch (`UCCFetcher._fetch_url`) -/

namespace UCCFetcher

/-- `RATE_LIMIT_CALLS = 30` (30 calls per minute). -/
def RATE_LIMIT_CALLS : Nat := 30

/-- `RATE_LIMIT_PERIOD = 60` seconds. -/
def RATE_LIMIT_PERIOD : ℚ := 60

/-- `self.cache_duration = timedelta(hours=6)`, in seconds. -/
def cache_duration : ℚ := 21600

/-- The network's answer to one GET. -/
inductive FetchResponse where
  | transport
  | status (code : Nat) (body : String)
deriving DecidableEq

/-- The fetcher's mutable state (`self._cache`, `self._cache_ttl`,
`self._request_times`) plus whether the HTTP session has been opened. -/
structure FetchState where
  cache : List (String × String)
  cacheTtl : List (String × ℚ)
  request_times : List ℚ
  hasSession : Bool
deriving DecidableEq

/-- `UCCFetcher._get_cache_key`. -/
def get_cache_key (url : String) : String := "url:" ++ url

/-- `UCCFetcher._is_cache_valid`. -/
def is_cache_valid (st : FetchState) (key : String) (now : ℚ) : Bool :=
  match st.cacheTtl.lookup key with
  | some expiry => now < expiry
  | none => false

/-- `UCCFetcher._cache_response`, stamped at clock reading `now`. -/
def cache_response (st : FetchState) (key : String) (data : String) (now : ℚ) : FetchState :=
  { st with cache := (key, data) :: st.cache,
            cacheTtl := (key, now + cache_duration) :: st.cacheTtl }

/-- `UCCFetcher._fetch_url`: cache check, rate limiting, session check, GET,
caching.  Returns the result (`UCCFetchError` messages as strings), the new
state, and whether a network request was issued.  As in the source, the rate
limiter runs before the session check, and a cache hit bypasses both. -/
def fetch_url (st : FetchState) (url : String) (use_cache : Bool) (now slack : ℚ)
    (resp : FetchResponse) : Except String String × FetchState × Bool :=
  let key := get_cache_key url
  if use_cache && is_cache_valid st key now then
    (.ok ((st.cache.lookup key).getD ""), st, false)
  else
    let rl := enforce_rate_limit RATE_LIMIT_CALLS RATE_LIMIT_PERIOD st.request_times now slack
    let st1 : FetchState := { st with request_times := rl.1 }
    if !st.hasSession then
      (.error "HTTP session not initialized - ensure UCCFetcher is used as async context manager",
        st1, false)
    else
      match resp with
      | .transport => (.error ("Request error fetching " ++ url), st1, true)
      | .status code body =>
        if 400 ≤ code then (.error ("HTTP error fetching " ++ url), st1, true)
        else
          let st2 := if use_cache then cache_response st1 key body rl.2.1 else st1
          (.ok body, st2, true)

end UCCFetcher

/-! ### `uscode_processor.py` — the statute-corpus content processor

`BeautifulSoup(xml_content, 'xml')` parses the raw markup into an element
tree; the parse itself is outside the modelled core, so the processor is
embedded over an already-parsed tree of elements and text nodes, with the
tree operations (`find_all`, `get_text`, attribute access, `decompose`)
implemented to BeautifulSoup's semantics. -/

namespace USCodeProcessor

/-- A parsed markup node: an element with a tag name, attributes and
children, or a text node. -/
inductive XNode where
  | el (name : String) (attrs : List (String × String)) (children : List XNode)
  | txt (s : String)

mutual
/-- All text fragments of a subtree, document order (`soup.strings`). -/
def XNode.texts : XNode → List String
  | .txt s => [s]
  | .el _ _ cs => textsList cs

/-- Worker of `XNode.texts` over a child list. -/
def textsList : List XNode → List String
  | [] => []
  | n :: t => n.texts ++ textsList t
end

/-- `get_text(separator=sep, strip=True)`: join the stripped, nonempty text
fragments with the separator. -/
def getTextStrip (n : XNode) (sep : String) : String :=
  String.intercalate sep (n.texts.filterMap fun s =>
    let t := String.mk (pyStrip s.toList)
    if t.isEmpty then none else some t)

mutual
/-- Descendant elements (excluding the node itself), document order. -/
def XNode.descendantEls : XNode → List XNode
  | .txt _ => []
  | .el _ _ cs => descendantElsList cs

/-- Worker of `XNode.descendantEls`: each element child, then its own
descendants, in document order. -/
def descendantElsList : List XNode → List XNode
  | [] => []
  | n :: t => descHead n ++ descendantElsList t

/-- One child's contribution: the element itself followed by its
descendants; nothing for a text node. -/
def descHead : XNode → List XNode
  | .txt _ => []
  | .el nm a cc => XNode.el nm a cc :: descendantElsList cc
end

/-- The tag name of an element node. -/
def XNode.tagName : XNode → Option String
  | .el nm _ _ => some nm
  | .txt _ => none

/-- `element.find_all(names)`: descendant elements whose tag is listed. -/
def findAll (names : List String) (n : XNode) : List XNode :=
  n.descendantEls.filter fun d =>
    match d.tagName with
    | some nm => names.contains nm
    | none => false

/-- `element.find(names)`: the first such descendant. -/
def findFirst (names : List String) (n : XNode) : Option XNode :=
  (findAll names n).head?

/-- `element.get(key)`: attribute lookup. -/
def XNode.attr : XNode → String → Option String
  | .el _ attrs _, k => attrs.lookup k
  | .txt _, _ => none

mutual
/-- `decompose()` of every descendant element with a listed tag name:
drop those subtrees wholesale. -/
def XNode.removeNames (names : List String) : XNode → XNode
  | .txt s => .txt s
  | .el nm a cs => .el nm a (removeNamesList names cs)

/-- Worker of `XNode.removeNames` over a child list. -/
def removeNamesList (names : List String) : List XNode → List XNode
  | [] => []
  | n :: t => removeHead names n ++ removeNamesList names t

/-- One child's contribution: dropped wholesale when its tag is listed,
otherwise kept with its own subtree filtered; text nodes are kept. -/
def removeHead (names : List String) : XNode → List XNode
  | .txt s => [.txt s]
  | .el nm a cc =>
    if names.contains nm then []
    else [XNode.el nm a (removeNamesList names cc)]
end

mutual
/-- `str(element)`: a serialization of the subtree.  Attribute quoting and
formatting are approximated; no verified property mentions the serialized
`xml_content` bytes. -/
def XNode.serialize : XNode → String
  | .txt s => s
  | .el nm attrs cs =>
    "<" ++ nm ++
      ((attrs.map fun a => " " ++ a.1 ++ "=" ++ "\"" ++ a.2 ++ "\"").foldl (· ++ ·) "") ++
      ">" ++ serializeList cs ++ "</" ++ nm ++ ">"

/-- Worker of `XNode.serialize` over a child list. -/
def serializeList : List XNode → String
  | [] => ""
  | n :: t => n.serialize ++ serializeList t
end

/-- `USCodeProcessor._extract_element_number`: the first truthy of the
`number`, `num`, `identifier` attributes (stripped), else the first child
element among `num`, `number`, `identifier` with nonempty stripped text. -/
def extract_element_number (e : XNode) : Option String :=
  match ([e.attr "number", e.attr "num", e.attr "identifier"].filterMap id).find?
      (fun v => !v.isEmpty) with
  | some v => some (String.mk (pyStrip v.toList))
  | none =>
    ((findAll ["num", "number", "identifier"] e).map fun d => getTextStrip d "").find?
      (fun t => !t.isEmpty)

/-- `USCodeProcessor._extract_element_heading`. -/
def extract_element_heading (e : XNode) : String :=
  match ((findAll ["heading", "title", "header"] e).map fun d => getTextStrip d "").find?
      (fun t => !t.isEmpty) with
  | some t => t
  | none => "No heading"

/-- `USCodeProcessor._extract_section_content`: the text of the first
`content`/`text`/`body` descendant, else the text of a copy of the section
with `heading`/`num`/`number`/`identifier` subtrees removed (re-serializing
and re-parsing the element is the identity on the tree). -/
def extract_section_content (e : XNode) : String :=
  match findFirst ["content", "text", "body"] e with
  | some ce => getTextStrip ce " "
  | none => getTextStrip (e.removeNames ["heading", "num", "number", "identifier"]) " "

/-- The character filter of `re.sub(r'[^\w\s\.\,\;\:\(\)\-\'\"]', ' ', text)`. -/
def keepCleanChar (c : Char) : Bool :=
  isWordChar c || isPyWhitespace c || c = '.' || c = ',' || c = ';' || c = ':' ||
    c = '(' || c = ')' || c = '-' || c = quoteS || c = quoteD

mutual
/-- `re.sub(r'ยง\s*', 'section ', text)` — the source file stores the
section sign as the two byte-mangled characters U+0E22, U+0E07; the first is
mandatory and `?` applies only to the second, so the match is the two-char
sequence followed by any whitespace. -/
def sectionSignSub : List Char → List Char
  | [] => []
  | c :: t =>
    if c = 'ย' then
      match t with
      | d :: u =>
        if d = 'ง' then "section ".toList ++ sectionSignSkip u
        else c :: sectionSignSub (d :: u)
      | [] => [c]
    else c :: sectionSignSub t

/-- Worker of `sectionSignSub`: consume the `\s*` tail of a match, then
resume scanning (a following section sign starts a new match). -/
def sectionSignSkip : List Char → List Char
  | [] => []
  | c :: t =>
    if isPyWhitespace c then sectionSignSkip t
    else if c = 'ย' then
      match t with
      | d :: u =>
        if d = 'ง' then "section ".toList ++ sectionSignSkip u
        else c :: sectionSignSub (d :: u)
      | [] => [c]
    else c :: sectionSignSub t
end

/-- `USCodeProcessor._clean_text_for_search`: collapse whitespace, blank out
characters outside the kept set, rewrite the (mangled) section sign, strip. -/
def clean_text_for_search (text : String) : String :=
  if text.isEmpty then ""
  else
    let s1 := collapseWs text.toList
    let s2 := s1.map fun c => if keepCleanChar c then c else ' '
    String.mk (pyStrip (sectionSignSub s2))

/-- `self.citation_patterns['usc_section']`:
`\b(\d+)\s+U\.?S\.?C\.?\s+ยง?\s*(\d+[a-z]?(?:-\d+[a-z]?)*)\b`,
`re.IGNORECASE` (the mangled section sign makes U+0E22 mandatory with
U+0E07 optional). -/
def uscSectionPat : RPattern where
  pre := [.wb]
  g1 := [.plus Char.isDigit]
  mid := [.plus isPyWhitespace, .lit true ['U'], .optCls (· = '.'), .lit true ['S'],
    .optCls (· = '.'), .lit true ['C'], .optCls (· = '.'), .plus isPyWhitespace,
    .lit true ['ย'], .optCls (· = 'ง'), .star isPyWhitespace]
  g2 := [.plus Char.isDigit, .optCls isAsciiLetter, .rep .dashNumLet]
  post := [.wb]

/-- `self.citation_patterns['section_ref']`:
`\bsection\s+(\d+[a-z]?(?:-\d+[a-z]?)*)\b`, `re.IGNORECASE`. -/
def sectionRefPat : RPattern where
  pre := [.wb, .lit true "section".toList, .plus isPyWhitespace]
  g1 := [.plus Char.isDigit, .optCls isAsciiLetter, .rep .dashNumLet]
  mid := []
  g2 := []
  post := [.wb]

/-- Order-preserving deduplication (the `seen` set loop). -/
def dedupKeepFirst : List String → List String → List String
  | [], _ => []
  | r :: rest, seen =>
    if seen.contains r then dedupKeepFirst rest seen
    else r :: dedupKeepFirst rest (r :: seen)

/-- `USCodeProcessor._extract_references`. -/
def extract_references (content : String) : List String :=
  let cs := content.toList
  let uscRefs := (finditer uscSectionPat cs).map fun m =>
    String.mk m.g1 ++ " USC " ++ String.mk m.g2
  let secRefs := (finditer sectionRefPat cs).map fun m =>
    "section " ++ String.mk m.g1
  dedupKeepFirst (uscRefs ++ secRefs) []

/-- `self.legal_keywords`, in dict (insertion) order. -/
def legal_keywords : List (String × List String) :=
  [("criminal", ["criminal", "crime", "felony", "misdemeanor", "offense", "penalty",
    "punishment", "imprisonment"]),
   ("civil", ["civil", "liability", "damages", "compensation", "remedy", "injunction"]),
   ("regulatory", ["regulation", "compliance", "enforcement", "violation", "administrative"]),
   ("procedure", ["procedure", "process", "hearing", "appeal", "jurisdiction", "venue"]),
   ("definitions", ["definition", "means", "includes", "term", "shall mean"]),
   ("requirements", ["shall", "must", "required", "mandatory", "obligation"]),
   ("prohibitions", ["prohibited", "unlawful", "forbidden", "shall not", "may not"]),
   ("exceptions", ["except", "unless", "provided that", "however", "notwithstanding"])]

/-- The word alternation of the `legal_terms` `re.findall` in
`_extract_keywords`, in pattern order (applied to lowered text, so case
sensitivity is immaterial). -/
def legalTermWords : List String :=
  ["shall", "may", "must", "required", "prohibited", "unlawful", "penalty", "fine",
   "imprisonment", "liability", "damages", "jurisdiction", "enforcement", "compliance",
   "violation", "regulation", "definition", "includes", "means", "term"]

/-- `\b(?:shall|may|...|term)\b`. -/
def legalTermsPat : RPattern where
  pre := [.wb]
  g1 := [.altLit false (legalTermWords.map String.toList)]
  mid := [.wb]
  g2 := []

/-- `USCodeProcessor._extract_keywords`.  Python iterates `set(legal_terms)`,
whose order is the interpreter's hash-dependent set order; it is modelled by
the parameter `setIter` applied to the deduplicated match list, so every
theorem below holds for any fixed interpreter order. -/
def extract_keywords (setIter : List String → List String) (text : String) : List String :=
  let tl := pyToLower text
  let tc := tl.toList
  let categories := (legal_keywords.filter fun cat =>
    cat.2.any fun t => isSubstr t.toList tc).map (·.1)
  let terms := (finditer legalTermsPat tl.toList).map fun m => String.mk m.g1
  let keywords := (setIter (dedupKeepFirst terms [])).foldl
    (fun ks t => if ks.contains t then ks else ks ++ [t]) categories
  keywords.take 20

/-- `USCodeProcessor._find_parent_chapter`, over the ancestor chain of the
element, nearest first: at the first `chapter`/`subchapter` ancestor, return
its extracted number (which may itself be absent). -/
def find_parent_chapter (ancestors : List XNode) : Option String :=
  match ancestors.find? (fun a => a.tagName = some "chapter" || a.tagName = some "subchapter") with
  | some p => extract_element_number p
  | none => none

/-- `USCodeProcessor._extract_subsections`. -/
def extract_subsections (e : XNode) : List String :=
  (findAll ["subsection", "paragraph", "subparagraph"] e).filterMap extract_element_number

/-- The `ProcessedSection` dataclass (fields the element processing sets;
`source_url` is never passed and stays `None`). -/
structure ProcessedSection where
  title_number : Nat
  section_number : String
  citation : String
  heading : String
  content : String
  clean_text : String
  xml_content : String
  chapter_number : Option String
  subsections : List String
  references : List String
  keywords : List String
  package_id : Option String
  last_modified : ℚ

/-- `USCodeProcessor._process_section_element`: `None` when the element has
no extractable number, otherwise the processed record.  `ancestors` is the
element's parent chain (nearest first) in the parsed document, `now` the
`datetime.now()` reading. -/
def process_section_element (setIter : List String → List String) (e : XNode)
    (ancestors : List XNode) (title_number : Nat) (package_id : Option String)
    (now : ℚ) : Option ProcessedSection :=
  match extract_element_number e with
  | none => none
  | some section_number =>
    let content := extract_section_content e
    let clean_text := clean_text_for_search content
    some { title_number := title_number
           section_number := section_number
           citation := toString title_number ++ " USC " ++ section_number
           heading := extract_element_heading e
           content := content
           clean_text := clean_text
           xml_content := e.serialize
           chapter_number := find_parent_chapter ancestors
           subsections := extract_subsections e
           references := extract_references content
           keywords := extract_keywords setIter clean_text
           package_id := package_id
           last_modified := now }

/-- The per-section loop of `USCodeProcessor._extract_all_sections`
(lines 203–210): each found `section` element is processed inside a
`try`/`except`; a raise is logged and skipped, a `None` result is dropped,
and the loop continues — so the collected sections are exactly the
successful non-`None` results, in order. -/
def extract_all_sections_loop (results : List (Except String (Option α))) : List α :=
  match results with
  | [] => []
  | .ok (some s) :: rest => s :: extract_all_sections_loop rest
  | .ok none :: rest => extract_all_sections_loop rest
  | .error _ :: rest => extract_all_sections_loop rest

end USCodeProcessor

/-! ### `uscode_indexer.py` — the statute-corpus orchestrator -/

namespace USCodeIndexer

/-- The relevant fields of the `IndexingStats` dataclass (the two datetime
fields are omitted; no verified property mentions durations). -/
structure IndexingStats where
  titles_processed : Nat
  chapters_processed : Nat
  sections_processed : Nat
  errors : Nat
  total_api_calls : Nat
  failed_api_calls : Nat
deriving DecidableEq

/-- Fresh statistics, all counters zero (the dataclass defaults). -/
def initStats : IndexingStats :=
  { titles_processed := 0, chapters_processed := 0, sections_processed := 0,
    errors := 0, total_api_calls := 0, failed_api_calls := 0 }

/-- The control-flow outcome of `_process_title` for one title:
`ok c s` — fetch, processing and `_store_title` all completed, storing `c`
chapters and `s` sections; `fetchEmpty` — `get_title_content` returned a falsy
value, so the method logged a warning and returned; `err c s` — an exception
was raised somewhere in the body after `c` chapters and `s` sections had been
stored (`c = s = 0` when the fetch itself raised). -/
inductive TitleOutcome where
  | ok (chapters sections : Nat)
  | fetchEmpty
  | err (chapters sections : Nat)
deriving DecidableEq

/-- `USCodeIndexer._process_title`: bumps `total_api_calls`, then either
returns normally (updating the stored-object counters) or increments
`stats.errors` once in its own `except` handler and re-raises.  The returned
flag records whether the call raised. -/
def process_title (st : IndexingStats) (o : TitleOutcome) : IndexingStats × Bool :=
  let st := { st with total_api_calls := st.total_api_calls + 1 }
  match o with
  | .fetchEmpty => ({ st with failed_api_calls := st.failed_api_calls + 1 }, false)
  | .ok c s =>
    ({ st with chapters_processed := st.chapters_processed + c,
               sections_processed := st.sections_processed + s }, false)
  | .err c s =>
    ({ st with chapters_processed := st.chapters_processed + c,
               sections_processed := st.sections_processed + s,
               errors := st.errors + 1 }, true)

/-- The per-title loop of `_run_full_indexing` (lines 161–185): a raise from
`_process_title` is caught, `stats.errors` is incremented again by the loop's
handler, and the loop continues with the next title; a normal return
increments `titles_processed`. -/
def run_loop (st : IndexingStats) : List TitleOutcome → IndexingStats
  | [] => st
  | o :: rest =>
    let r := process_title st o
    if r.2 then run_loop { r.1 with errors := r.1.errors + 1 } rest
    else run_loop { r.1 with titles_processed := r.1.titles_processed + 1 } rest

/-- What the GovInfo package search inside `_get_available_titles` did:
raised, returned a falsy result, or returned packages with the given title
strings. -/
inductive SearchOutcome where
  | raises
  | emptyResult
  | packages (titleStrings : List String)

/-- `re.search(r'Title (\d+)', title)`. -/
def titleNumPattern : RPattern where
  pre := [.lit false "Title ".toList]
  g1 := [.plus Char.isDigit]
  mid := []
  g2 := []

/-- `set(range(1, 55))`: the standard US Code titles 1–54. -/
def standard_title_range : List Nat := List.range' 1 54

/-- `USCodeIndexer._get_available_titles`: the search call is preceded by a
`total_api_calls` bump (always 1); an exception anywhere in the body is
caught and the standard range 1–54 is returned as fallback; a falsy search
result yields `[]`; otherwise title numbers are parsed out of the package
titles, collected as a set (falling back to 1–54 when none parse) and
returned sorted.  Returns the title list and the `failed_api_calls` delta. -/
def get_available_titles (o : SearchOutcome) : List Nat × Nat :=
  match o with
  | .raises => (standard_title_range, 1)
  | .emptyResult => ([], 1)
  | .packages ts =>
    let nums := ts.filterMap fun t =>
      (reSearch titleNumPattern t.toList).map fun m => digitsToNat m.g1
    let titles := if nums.isEmpty then standard_title_range
      else sortedPy (fun a b => a ≤ b) nums.dedup
    (titles, 0)

/-- The environment of one full statute run: whether the backend created the
job (and its id), what the package search did, and the outcome of each
title's processing. -/
structure RunEnv where
  jobCreate : Option String
  searchOutcome : SearchOutcome
  unitOutcome : Nat → TitleOutcome

/-- `USCodeIndexer._run_full_indexing`: enumerate (or take the single
requested title), run the per-title loop, finalize and mark the job
`completed`.  Every callee absorbs its own exceptions, so this method always
returns normally with final status `completed`. -/
def run_full_indexing (env : RunEnv) (title_number : Option Nat) : IndexingStats × String :=
  let enum : List Nat × Nat × Nat :=
    match title_number with
    | some t => ([t], 0, 0)
    | none =>
      let r := get_available_titles env.searchOutcome
      (r.1, 1, r.2)
  let st0 := { initStats with total_api_calls := enum.2.1, failed_api_calls := enum.2.2 }
  (run_loop st0 (enum.1.map env.unitOutcome), "completed")

/-- `USCodeIndexer.start_full_indexing`: create the job record, then run.
The result is the raised exception or the job id with final statistics and
status; the flag records whether `_update_job_error` ran (it requires
`self.current_job_id` to be set, which a job-creation failure leaves `None`,
and `_run_full_indexing` itself never raises). -/
def start_full_indexing (env : RunEnv) (title_number : Option Nat) :
    Except String (String × IndexingStats × String) × Bool :=
  match env.jobCreate with
  | none => (.error "Failed to create indexing job", false)
  | some jid =>
    let r := run_full_indexing env title_number
    (.ok (jid, r.1, r.2), false)

/-- The backend's answer to one request made by `_make_backend_request`. -/
inductive BackendOutcome where
  | transport
  | badJson (code : Nat)
  | resp (code : Nat) (success : Bool) (dataId : Option String)
deriving DecidableEq

/-- A decoded response envelope: the `success` flag and `data.id`. -/
structure Envelope where
  success : Bool
  dataId : Option String
deriving DecidableEq

/-- `USCodeIndexer._make_backend_request`: any exception (transport or JSON
decoding) and any status of 400 or above yield `None`; otherwise the decoded
envelope.  This helper never raises. -/
def make_backend_request (o : BackendOutcome) : Option Envelope :=
  match o with
  | .transport => none
  | .badJson code => if 400 ≤ code then none else none
  | .resp code success dataId =>
    if 400 ≤ code then none else some { success := success, dataId := dataId }

end USCodeIndexer

/-! ### `ucc_indexer.py` — the commercial-corpus orchestrator -/

namespace UCCIndexer

/-- The control-flow outcome of `UCCIndexer._process_article` for one
article: it either returned normally or raised (it has no early-return path —
fetch, processing and store failures all re-raise).  The statistics counters
other than `articles_processed` and `errors` are updated inside that body and
are not tracked at this granularity; no verified property mentions them. -/
inductive ArticleOutcome where
  | ok
  | err
deriving DecidableEq

/-- The run counters that the per-article loop itself updates. -/
structure RunStats where
  articles_processed : Nat
  errors : Nat
deriving DecidableEq

/-- The per-article loop of `UCCIndexer._run_full_indexing` (lines 179–198):
a raise is caught once, `stats.errors` is incremented once, and the loop
continues; a normal return increments `articles_processed`. -/
def run_loop (st : RunStats) : List ArticleOutcome → RunStats
  | [] => st
  | .ok :: rest => run_loop { st with articles_processed := st.articles_processed + 1 } rest
  | .err :: rest => run_loop { st with errors := st.errors + 1 } rest

/-- `UCCIndexer._run_full_indexing` from the article enumeration on: an
enumeration failure propagates to the outer handler, which persists the error
to the job and re-raises; with an enumerated outcome list the loop runs, the
job finishes `completed`, and finalization failures are only warnings. -/
def run_full_indexing (enum : Except String (List ArticleOutcome)) :
    RunStats × Except String String :=
  match enum with
  | .error e => ({ articles_processed := 0, errors := 0 }, .error e)
  | .ok os => (run_loop { articles_processed := 0, errors := 0 } os, .ok "completed")

/-- The article outcome induced by an `Except`-valued article body. -/
def outcome_of_result (r : Except String α) : ArticleOutcome :=
  match r with
  | .ok _ => .ok
  | .error _ => .err

/-- `UCCIndexer._make_backend_request`: returns the decoded envelope, or
`None` after any transport exception, JSON decoding failure, or status of
400 or above; it also counts API calls.  Returns the envelope option and the
`(total_api_calls, failed_api_calls)` deltas — on a transport failure the
response never arrives, so only `failed_api_calls` is bumped. -/
def make_backend_request (o : USCodeIndexer.BackendOutcome) :
    Option USCodeIndexer.Envelope × Nat × Nat :=
  match o with
  | .transport => (none, 0, 1)
  | .badJson _code => (none, 1, 1)
  | .resp code success dataId =>
    if 400 ≤ code then (none, 1, 1)
    else (some { success := success, dataId := dataId }, 1, 0)

/-- `UCCIndexer._store_subsection_data`: the backend helper never raises, a
falsy or unsuccessful response is only logged as a warning, and the method's
own `except` absorbs anything else — so the call always returns normally.
The payload carries whether the subsection was actually stored. -/
def store_subsection_data (o : USCodeIndexer.BackendOutcome) : Except String Bool :=
  match (make_backend_request o).1 with
  | some env => if env.success then .ok true else .ok false
  | none => .ok false

/-- `UCCIndexer._store_definition_data`: same shape as the subsection store. -/
def store_definition_data (o : USCodeIndexer.BackendOutcome) : Except String Bool :=
  match (make_backend_request o).1 with
  | some env => if env.success then .ok true else .ok false
  | none => .ok false

/-- `UCCIndexer._store_cross_reference_data`: the citation-resolution lookup
and the creation call both go through the absorbing helper, and a failure is
only logged — the call always returns normally. -/
def store_cross_reference_data (lookup : Option USCodeIndexer.BackendOutcome)
    (create : USCodeIndexer.BackendOutcome) : Except String Bool :=
  let _toSectionId := lookup.bind fun o =>
    match (make_backend_request o).1 with
    | some env => if env.success then env.dataId else none
    | none => none
  match (make_backend_request create).1 with
  | some env => if env.success then .ok true else .ok false
  | none => .ok false

/-- `UCCIndexer._store_search_index_data`: same absorbing shape. -/
def store_search_index_data (o : USCodeIndexer.BackendOutcome) : Except String Bool :=
  match (make_backend_request o).1 with
  | some env => if env.success then .ok true else .ok false
  | none => .ok false

/-- The backend responses consumed while storing one section and its
children. -/
structure SectionStoreEnv where
  partLookup : Option USCodeIndexer.BackendOutcome
  sectionCreate : USCodeIndexer.BackendOutcome
  subsectionResps : List USCodeIndexer.BackendOutcome
  definitionResps : List USCodeIndexer.BackendOutcome
  crossRefResps : List (Option USCodeIndexer.BackendOutcome × USCodeIndexer.BackendOutcome)
  searchIndexResp : USCodeIndexer.BackendOutcome

/-- `UCCIndexer._store_section_data`: the optional part lookup is absorbing;
a falsy or unsuccessful section-creation response raises (as does a missing
`data.id`, which would be a `KeyError`); afterwards every child record —
subsections, definitions, cross-references, the search-index entry — is
stored through the absorbing helpers, each child bumping its counter whether
or not its store succeeded.  Returns the `(subsections, definitions,
cross-references)` counter deltas. -/
def store_section_data (env : SectionStoreEnv) : Except String (Nat × Nat × Nat) := do
  let _partId := env.partLookup.bind fun o =>
    match (make_backend_request o).1 with
    | some e => if e.success then e.dataId else none
    | none => none
  let sectionId ←
    match (make_backend_request env.sectionCreate).1 with
    | some e =>
      if e.success then
        match e.dataId with
        | some i => Except.ok i
        | none => Except.error "KeyError: 'data'"
      else Except.error "Failed to create UCC section"
    | none => Except.error "Failed to create UCC section"
  let _ := sectionId
  let subs ← env.subsectionResps.foldlM (fun (n : Nat) o => do
    let _ ← store_subsection_data o
    pure (n + 1)) 0
  let defs ← env.definitionResps.foldlM (fun (n : Nat) o => do
    let _ ← store_definition_data o
    pure (n + 1)) 0
  let refs ← env.crossRefResps.foldlM (fun (n : Nat) o => do
    let _ ← store_cross_reference_data o.1 o.2
    pure (n + 1)) 0
  let _ ← store_search_index_data env.searchIndexResp
  pure (subs, defs, refs)

/-- `UCCIndexer._process_article` when the fetch and every store call
succeed: the processor's per-section loop absorbs individual section
failures, so the article body completes normally, carrying exactly the
surviving sections. -/
def process_article_result (sectionResults : List (Except String α)) :
    Except String (List α) :=
  .ok (UCCProcessor.process_article_sections sectionResults)

end UCCIndexer

/-! ## Verified properties -/

/-! ### Definition extraction (C3) -/

theorem mem_dedupByTerm :
    ∀ (l : List UCCProcessor.UCCDefinition) (seen : List String)
      (d : UCCProcessor.UCCDefinition), d ∈ UCCProcessor.dedupByTerm l seen → d ∈ l
  | [], _, _, h => by simp [UCCProcessor.dedupByTerm] at h
  | x :: rest, seen, d, h => by
    simp only [UCCProcessor.dedupByTerm] at h
    split at h
    · exact List.mem_cons_of_mem _ (mem_dedupByTerm rest _ d h)
    · rcases List.mem_cons.mp h with h1 | h2
      · exact h1 ▸ List.mem_cons_self x rest
      · exact List.mem_cons_of_mem _ (mem_dedupByTerm rest _ d h2)

theorem extract_definitions_filter (content citation article_number : String)
    (d : UCCProcessor.UCCDefinition)
    (hd : d ∈ UCCProcessor.extract_definitions content citation article_number) :
    2 < d.term.length ∧ 10 < d.definition.length := by
  have hc := mem_dedupByTerm _ _ _ hd
  rw [List.mem_flatMap] at hc
  obtain ⟨pat, -, hmem⟩ := hc
  rw [List.mem_filterMap] at hmem
  obtain ⟨m, -, heq⟩ := hmem
  simp only at heq
  split at heq
  · rename_i hlen
    cases heq
    exact hlen
  · exact absurd heq (by simp)

/-- C3.  Every definition returned by `UCCProcessor._extract_definitions` has
term length above 2 and definition length above 10; the input
`"A" means B.` yields no definition; the input `"Goods" means all things
that are movable at the time of identification.` yields exactly one
definition, whose term is `Goods`. -/
theorem claim_C3_definition_filter :
    (∀ (content citation article_number : String) (d : UCCProcessor.UCCDefinition),
      d ∈ UCCProcessor.extract_definitions content citation article_number →
      2 < d.term.length ∧ 10 < d.definition.length)
    ∧ UCCProcessor.extract_definitions "\"A\" means B." "" "" = []
    ∧ (UCCProcessor.extract_definitions
        "\"Goods\" means all things that are movable at the time of identification."
        "" "").map (fun d => d.term) = ["Goods"] := by
  refine ⟨extract_definitions_filter, by decide, by decide⟩

/-- Witness for C3 at a concrete extracted definition. -/
theorem claim_C3_definition_filter_witness :
    2 < (UCCProcessor.UCCDefinition.term
      ⟨"Goods", "all things that are movable at the time of identification.",
        "", "", "general"⟩).length ∧
    10 < (UCCProcessor.UCCDefinition.definition
      ⟨"Goods", "all things that are movable at the time of identification.",
        "", "", "general"⟩).length :=
  claim_C3_definition_filter.1
    "\"Goods\" means all things that are movable at the time of identification."
    "" ""
    ⟨"Goods", "all things that are movable at the time of identification.",
      "", "", "general"⟩
    (by decide)

/-! ### Subsection extraction order (C9) -/

theorem subEntryStep_fold (cs : List Char) (lv : Nat) :
    ∀ (ms : List RMatch) (acc : List UCCFetcher.SubsectionEntry),
      ms.foldl (UCCFetcher.subEntryStep cs lv) acc
        = acc ++ UCCFetcher.subEntriesOf cs lv acc.length ms
  | [], acc => by simp [UCCFetcher.subEntriesOf]
  | m :: rest, acc => by
    simp only [List.foldl_cons, UCCFetcher.subEntriesOf, UCCFetcher.subEntryStep]
    split
    · exact subEntryStep_fold cs lv rest acc
    · rw [subEntryStep_fold cs lv rest]
      simp

theorem subEntriesOf_orders (cs : List Char) (lv : Nat) :
    ∀ (ms : List RMatch) (k : Nat),
      (UCCFetcher.subEntriesOf cs lv k ms).map (fun e => e.order)
        = List.range' (k + 1) (UCCFetcher.subEntriesOf cs lv k ms).length
  | [], k => by simp [UCCFetcher.subEntriesOf]
  | m :: rest, k => by
    simp only [UCCFetcher.subEntriesOf]
    split
    · exact subEntriesOf_orders cs lv rest k
    · simp only [List.map_cons, List.length_cons, List.range'_succ]
      rw [subEntriesOf_orders cs lv rest (k + 1)]

theorem subEntriesOf_levels (cs : List Char) (lv : Nat) :
    ∀ (ms : List RMatch) (k : Nat) (e : UCCFetcher.SubsectionEntry),
      e ∈ UCCFetcher.subEntriesOf cs lv k ms → e.level = lv
  | [], _, _, h => by simp [UCCFetcher.subEntriesOf] at h
  | m :: rest, k, e, h => by
    simp only [UCCFetcher.subEntriesOf] at h
    split at h
    · exact subEntriesOf_levels cs lv rest k e h
    · rcases List.mem_cons.mp h with h1 | h2
      · rw [h1]
      · exact subEntriesOf_levels cs lv rest (k + 1) e h2

theorem subEntriesOf_start_mem (cs : List Char) (lv : Nat) :
    ∀ (ms : List RMatch) (k : Nat) (e : UCCFetcher.SubsectionEntry),
      e ∈ UCCFetcher.subEntriesOf cs lv k ms → e.start ∈ ms.map (fun m => m.start)
  | [], _, _, h => by simp [UCCFetcher.subEntriesOf] at h
  | m :: rest, k, e, h => by
    simp only [UCCFetcher.subEntriesOf] at h
    simp only [List.map_cons, List.mem_cons]
    split at h
    · exact Or.inr (subEntriesOf_start_mem cs lv rest k e h)
    · rcases List.mem_cons.mp h with h1 | h2
      · exact Or.inl (by rw [h1])
      · exact Or.inr (subEntriesOf_start_mem cs lv rest (k + 1) e h2)

theorem finditerAux_start_ge (pat : RPattern) :
    ∀ (fuel pos : Nat) (prev : Option Char) (s : List Char) (m : RMatch),
      m ∈ finditerAux pat fuel pos prev s → pos ≤ m.start
  | 0, _, _, _, _, h => by simp [finditerAux] at h
  | fuel + 1, pos, prev, s, m, h => by
    simp only [finditerAux] at h
    split at h
    · rcases List.mem_cons.mp h with h1 | h2
      · rw [h1]
      · exact le_trans (Nat.le_add_right pos _) (finditerAux_start_ge pat fuel _ _ _ m h2)
    · split at h
      · exact absurd h (by simp)
      · exact le_trans (Nat.le_succ pos) (finditerAux_start_ge pat fuel _ _ _ m h)

theorem finditerAux_starts_sorted (pat : RPattern) :
    ∀ (fuel pos : Nat) (prev : Option Char) (s : List Char),
      (finditerAux pat fuel pos prev s).Pairwise (fun a b => a.start < b.start)
  | 0, _, _, _ => by simp [finditerAux]
  | fuel + 1, pos, prev, s => by
    simp only [finditerAux]
    split
    · rename_i len whole g1 g2 heq
      refine List.pairwise_cons.mpr ⟨fun b hb => ?_, finditerAux_starts_sorted pat fuel _ _ _⟩
      have := finditerAux_start_ge pat fuel _ _ _ b hb
      simp only
      omega
    · split
      · simp
      · exact finditerAux_starts_sorted pat fuel _ _ _

theorem subfold_orders (cs : List Char) (lv : Nat) (ms : List RMatch)
    (acc : List UCCFetcher.SubsectionEntry)
    (h : acc.map (fun e => e.order) = List.range' 1 acc.length) :
    (ms.foldl (UCCFetcher.subEntryStep cs lv) acc).map (fun e => e.order)
      = List.range' 1 (ms.foldl (UCCFetcher.subEntryStep cs lv) acc).length := by
  rw [subEntryStep_fold, List.map_append, List.length_append, h,
    subEntriesOf_orders]
  have h2 := List.range'_append 1 acc.length
    (UCCFetcher.subEntriesOf cs lv acc.length ms).length 1
  simp only [one_mul] at h2
  rw [Nat.add_comm 1 acc.length] at h2
  exact h2.trans (by rw [Nat.add_comm])

theorem subEntriesOf_start_sorted (cs : List Char) (lv : Nat) :
    ∀ (ms : List RMatch) (k : Nat),
      ms.Pairwise (fun a b => a.start < b.start) →
      (UCCFetcher.subEntriesOf cs lv k ms).Pairwise (fun x y => x.start ≤ y.start)
  | [], _, _ => by simp [UCCFetcher.subEntriesOf]
  | m :: rest, k, h => by
    have hrest := (List.pairwise_cons.mp h).2
    have hhead := (List.pairwise_cons.mp h).1
    simp only [UCCFetcher.subEntriesOf]
    split
    · exact subEntriesOf_start_sorted cs lv rest k hrest
    · refine List.pairwise_cons.mpr ⟨fun e he => ?_, subEntriesOf_start_sorted cs lv rest (k + 1) hrest⟩
      have hmem := subEntriesOf_start_mem cs lv rest (k + 1) e he
      rw [List.mem_map] at hmem
      obtain ⟨m2, hm2, hst⟩ := hmem
      have := hhead m2 hm2
      simp only
      omega

theorem finditer_starts_sorted (pat : RPattern) (s : List Char) :
    (finditer pat s).Pairwise (fun a b => a.start < b.start) :=
  finditerAux_starts_sorted pat (s.length + 1) 0 none s

theorem extract_subsections_eq (content : String) :
    UCCFetcher.extract_subsections content
      = UCCFetcher.subEntriesOf content.toList 1 0
          (finditer UCCFetcher.subPatLetter content.toList)
        ++ UCCFetcher.subEntriesOf content.toList 2
            (UCCFetcher.subEntriesOf content.toList 1 0
              (finditer UCCFetcher.subPatLetter content.toList)).length
            (finditer UCCFetcher.subPatDigit content.toList)
        ++ UCCFetcher.subEntriesOf content.toList 3
            ((UCCFetcher.subEntriesOf content.toList 1 0
                (finditer UCCFetcher.subPatLetter content.toList)).length
              + (UCCFetcher.subEntriesOf content.toList 2
                  (UCCFetcher.subEntriesOf content.toList 1 0
                    (finditer UCCFetcher.subPatLetter content.toList)).length
                  (finditer UCCFetcher.subPatDigit content.toList)).length)
            (finditer UCCFetcher.subPatRoman content.toList) := by
  simp only [UCCFetcher.extract_subsections, List.foldl_cons, List.foldl_nil]
  rw [subEntryStep_fold _ _ _ []]
  rw [subEntryStep_fold]
  rw [subEntryStep_fold]
  simp [List.append_assoc]

/-- C9, counterexample: the content
`(1) zero (a) first (b) second (1) third` contains the markers `(a)`, `(b)`,
`(1)` in that textual order, yet the extracted subsection sequence does not
follow textual appearance order — the numeric entries come after the
lettered ones even though the first `(1)` is the first marker in the text. -/
theorem claim_C9_counterexample :
    UCCFetcher.containsInTextualOrder "(1) zero (a) first (b) second (1) third"
      "(a)" "(b)" "(1)" = true
    ∧ ¬ (UCCFetcher.extract_subsections
        "(1) zero (a) first (b) second (1) third").Pairwise
          (fun x y => x.start ≤ y.start) := by
  exact ⟨by decide, by decide⟩

/-- C9, amended.  Subsection extraction assigns strictly increasing `order`
indices (the consecutive numbers from 1), and the extraction sequence
preserves textual appearance order within each marker family; across
families the entries are grouped by family (lettered, then numeric, then
lower-roman), so for content whose only markers are `(a)`, `(b)`, `(1)` in
that textual order the three entries appear in textual order with orders
1, 2, 3. -/
theorem claim_C9_subsection_order :
    (∀ content : String,
      (UCCFetcher.extract_subsections content).map (fun e => e.order)
        = List.range' 1 (UCCFetcher.extract_subsections content).length)
    ∧ (∀ (content : String) (lv : Nat),
      ((UCCFetcher.extract_subsections content).filter
        (fun e => e.level = lv)).Pairwise (fun x y => x.start ≤ y.start))
    ∧ UCCFetcher.extract_subsections "(a) first\n(b) second\n(1) third"
        = [⟨"(a)", "(a) first", 1, 1, 0⟩, ⟨"(b)", "(b) second", 1, 2, 10⟩,
           ⟨"(1)", "(1) third", 2, 3, 21⟩] := by
  refine ⟨?_, ?_, by decide⟩
  · intro content
    simp only [UCCFetcher.extract_subsections, List.foldl_cons, List.foldl_nil]
    apply subfold_orders
    apply subfold_orders
    apply subfold_orders
    simp
  · intro content lv
    rw [extract_subsections_eq]
    simp only [List.filter_append]
    have hnil : ∀ (k lv2 : Nat) (pat : RPattern), lv2 ≠ lv →
        ((UCCFetcher.subEntriesOf content.toList lv2 k
          (finditer pat content.toList)).filter (fun e => e.level = lv)) = [] := by
      intro k lv2 pat h
      rw [List.filter_eq_nil_iff]
      intro e he
      have := subEntriesOf_levels content.toList lv2 _ k e he
      simp [this, h]
    have hful : ∀ (k lv2 : Nat) (pat : RPattern), lv2 = lv →
        ((UCCFetcher.subEntriesOf content.toList lv2 k
          (finditer pat content.toList)).filter
            (fun e => e.level = lv)).Pairwise (fun x y => x.start ≤ y.start) := by
      intro k lv2 pat h
      have heq : ((UCCFetcher.subEntriesOf content.toList lv2 k
          (finditer pat content.toList)).filter (fun e => e.level = lv))
          = UCCFetcher.subEntriesOf content.toList lv2 k
              (finditer pat content.toList) := by
        apply List.filter_eq_self.mpr
        intro e he
        have := subEntriesOf_levels content.toList lv2 _ k e he
        simp [this, h]
      rw [heq]
      exact subEntriesOf_start_sorted content.toList lv2 _ k
        (finditer_starts_sorted pat content.toList)
    by_cases h1 : lv = 1
    · rw [hnil _ 2 _ (by omega), hnil _ 3 _ (by omega)]
      simp only [List.append_nil, List.nil_append]
      exact hful _ 1 _ h1.symm
    by_cases h2 : lv = 2
    · rw [hnil _ 1 _ (by omega), hnil _ 3 _ (by omega)]
      simp only [List.append_nil, List.nil_append]
      exact hful _ 2 _ h2.symm
    by_cases h3 : lv = 3
    · rw [hnil _ 1 _ (by omega), hnil _ 2 _ (by omega)]
      simp only [List.append_nil, List.nil_append]
      exact hful _ 3 _ h3.symm
    · rw [hnil _ 1 _ (by omega), hnil _ 2 _ (by omega), hnil _ 3 _ (by omega)]
      simp

/-! ### Orchestrator runs (C1, C6, C7) -/

theorem us_run_loop_append (l1 l2 : List USCodeIndexer.TitleOutcome) :
    ∀ st : USCodeIndexer.IndexingStats,
      USCodeIndexer.run_loop st (l1 ++ l2)
        = USCodeIndexer.run_loop (USCodeIndexer.run_loop st l1) l2 := by
  induction l1 with
  | nil => intro st; rfl
  | cons o rest ih =>
    intro st
    simp only [List.cons_append, USCodeIndexer.run_loop]
    split <;> exact ih _

theorem us_run_loop_all_ok :
    ∀ (os : List USCodeIndexer.TitleOutcome) (st : USCodeIndexer.IndexingStats),
      (∀ o ∈ os, ∃ a b, o = USCodeIndexer.TitleOutcome.ok a b) →
      (USCodeIndexer.run_loop st os).titles_processed = st.titles_processed + os.length
      ∧ (USCodeIndexer.run_loop st os).errors = st.errors
  | [], st, _ => by simp [USCodeIndexer.run_loop]
  | o :: rest, st, h => by
    obtain ⟨a, b, rfl⟩ := h _ (List.mem_cons_self o rest)
    have ih := us_run_loop_all_ok rest
      { st with total_api_calls := st.total_api_calls + 1,
                chapters_processed := st.chapters_processed + a,
                sections_processed := st.sections_processed + b,
                titles_processed := st.titles_processed + 1 }
      (fun o ho => h o (List.mem_cons_of_mem _ ho))
    simp only [USCodeIndexer.run_loop, USCodeIndexer.process_title,
      Bool.false_eq_true, if_false] at ih ⊢
    rw [ih.1, ih.2]
    simp only [List.length_cons]
    exact ⟨by omega, trivial⟩

theorem us_run_loop_err_cons (st : USCodeIndexer.IndexingStats) (c s : Nat)
    (rest : List USCodeIndexer.TitleOutcome) :
    USCodeIndexer.run_loop st (USCodeIndexer.TitleOutcome.err c s :: rest)
      = USCodeIndexer.run_loop
          { st with total_api_calls := st.total_api_calls + 1,
                    chapters_processed := st.chapters_processed + c,
                    sections_processed := st.sections_processed + s,
                    errors := st.errors + 1 + 1 } rest := rfl

theorem us_run_full_completed (env : USCodeIndexer.RunEnv) (tn : Option Nat) :
    (USCodeIndexer.run_full_indexing env tn).2 = "completed" := by
  cases tn <;> rfl

theorem ucc_run_loop_all_ok :
    ∀ (os : List UCCIndexer.ArticleOutcome) (st : UCCIndexer.RunStats),
      (∀ o ∈ os, o = UCCIndexer.ArticleOutcome.ok) →
      (UCCIndexer.run_loop st os).articles_processed = st.articles_processed + os.length
      ∧ (UCCIndexer.run_loop st os).errors = st.errors
  | [], st, _ => by simp [UCCIndexer.run_loop]
  | o :: rest, st, h => by
    have := h _ (List.mem_cons_self o rest)
    subst this
    have ih := ucc_run_loop_all_ok rest
      { st with articles_processed := st.articles_processed + 1 }
      (fun o ho => h o (List.mem_cons_of_mem _ ho))
    simp only [UCCIndexer.run_loop] at ih ⊢
    rw [ih.1, ih.2]
    simp only [List.length_cons]
    exact ⟨by omega, trivial⟩

theorem ucc_run_loop_append (l1 l2 : List UCCIndexer.ArticleOutcome) :
    ∀ st : UCCIndexer.RunStats,
      UCCIndexer.run_loop st (l1 ++ l2)
        = UCCIndexer.run_loop (UCCIndexer.run_loop st l1) l2 := by
  induction l1 with
  | nil => intro st; rfl
  | cons o rest ih =>
    intro st
    cases o <;> exact ih _

/-- C1.  A full indexing run always finishes with status `completed`
(every per-unit failure is absorbed by the loop), and when exactly one of
the enumerated units raises while all others process normally, the final
statistics count all remaining units as processed and report at least one
error — for both the statute and the commercial orchestrator. -/
theorem claim_C1_partial_failure_run :
    (∀ (env : USCodeIndexer.RunEnv) (tn : Option Nat),
      (USCodeIndexer.run_full_indexing env tn).2 = "completed")
    ∧ (∀ (pre post : List USCodeIndexer.TitleOutcome) (c s : Nat),
      (∀ o ∈ pre, ∃ a b, o = USCodeIndexer.TitleOutcome.ok a b) →
      (∀ o ∈ post, ∃ a b, o = USCodeIndexer.TitleOutcome.ok a b) →
      (USCodeIndexer.run_loop USCodeIndexer.initStats
          (pre ++ USCodeIndexer.TitleOutcome.err c s :: post)).titles_processed
        = pre.length + post.length
      ∧ 1 ≤ (USCodeIndexer.run_loop USCodeIndexer.initStats
          (pre ++ USCodeIndexer.TitleOutcome.err c s :: post)).errors)
    ∧ (∀ (pre post : List UCCIndexer.ArticleOutcome),
      (∀ o ∈ pre, o = UCCIndexer.ArticleOutcome.ok) →
      (∀ o ∈ post, o = UCCIndexer.ArticleOutcome.ok) →
      (UCCIndexer.run_full_indexing
          (.ok (pre ++ UCCIndexer.ArticleOutcome.err :: post))).2 = .ok "completed"
      ∧ (UCCIndexer.run_full_indexing
          (.ok (pre ++ UCCIndexer.ArticleOutcome.err :: post))).1.articles_processed
        = pre.length + post.length
      ∧ 1 ≤ (UCCIndexer.run_full_indexing
          (.ok (pre ++ UCCIndexer.ArticleOutcome.err :: post))).1.errors) := by
  refine ⟨us_run_full_completed, ?_, ?_⟩
  · intro pre post c s hpre hpost
    have h1 := us_run_loop_all_ok pre USCodeIndexer.initStats hpre
    have h2 := us_run_loop_all_ok post
      { USCodeIndexer.run_loop USCodeIndexer.initStats pre with
          total_api_calls :=
            (USCodeIndexer.run_loop USCodeIndexer.initStats pre).total_api_calls + 1,
          chapters_processed :=
            (USCodeIndexer.run_loop USCodeIndexer.initStats pre).chapters_processed + c,
          sections_processed :=
            (USCodeIndexer.run_loop USCodeIndexer.initStats pre).sections_processed + s,
          errors := (USCodeIndexer.run_loop USCodeIndexer.initStats pre).errors + 1 + 1 }
      hpost
    constructor
    · rw [us_run_loop_append, us_run_loop_err_cons, h2.1]
      show (USCodeIndexer.run_loop USCodeIndexer.initStats pre).titles_processed
          + post.length = pre.length + post.length
      rw [h1.1]
      show 0 + pre.length + post.length = pre.length + post.length
      omega
    · rw [us_run_loop_append, us_run_loop_err_cons, h2.2]
      show 1 ≤ (USCodeIndexer.run_loop USCodeIndexer.initStats pre).errors + 1 + 1
      omega
  · intro pre post hpre hpost
    have h1 := ucc_run_loop_all_ok pre ⟨0, 0⟩ hpre
    have hcons : UCCIndexer.run_loop (UCCIndexer.run_loop ⟨0, 0⟩ pre)
        (UCCIndexer.ArticleOutcome.err :: post)
        = UCCIndexer.run_loop
            { UCCIndexer.run_loop ⟨0, 0⟩ pre with
                errors := (UCCIndexer.run_loop ⟨0, 0⟩ pre).errors + 1 } post := rfl
    have h2 := ucc_run_loop_all_ok post
      { UCCIndexer.run_loop ⟨0, 0⟩ pre with
          errors := (UCCIndexer.run_loop ⟨0, 0⟩ pre).errors + 1 } hpost
    refine ⟨rfl, ?_, ?_⟩
    · show (UCCIndexer.run_loop ⟨0, 0⟩
        (pre ++ UCCIndexer.ArticleOutcome.err :: post)).articles_processed
        = pre.length + post.length
      rw [ucc_run_loop_append, hcons, h2.1]
      show (UCCIndexer.run_loop ⟨0, 0⟩ pre).articles_processed + post.length
          = pre.length + post.length
      rw [h1.1]
      show 0 + pre.length + post.length = pre.length + post.length
      omega
    · show 1 ≤ (UCCIndexer.run_loop ⟨0, 0⟩
        (pre ++ UCCIndexer.ArticleOutcome.err :: post)).errors
      rw [ucc_run_loop_append, hcons, h2.2]
      show 1 ≤ (UCCIndexer.run_loop ⟨0, 0⟩ pre).errors + 1
      omega

/-- Witness for C1 at concrete runs of both orchestrators. -/
theorem claim_C1_partial_failure_run_witness :
    ((USCodeIndexer.run_loop USCodeIndexer.initStats
        ([USCodeIndexer.TitleOutcome.ok 1 2]
          ++ USCodeIndexer.TitleOutcome.err 0 0 :: [USCodeIndexer.TitleOutcome.ok 3 4])
      ).titles_processed = 2
      ∧ 1 ≤ (USCodeIndexer.run_loop USCodeIndexer.initStats
        ([USCodeIndexer.TitleOutcome.ok 1 2]
          ++ USCodeIndexer.TitleOutcome.err 0 0 :: [USCodeIndexer.TitleOutcome.ok 3 4])
      ).errors)
    ∧ ((UCCIndexer.run_full_indexing
        (.ok ([UCCIndexer.ArticleOutcome.ok]
          ++ UCCIndexer.ArticleOutcome.err :: [UCCIndexer.ArticleOutcome.ok]))).2
        = .ok "completed"
      ∧ (UCCIndexer.run_full_indexing
        (.ok ([UCCIndexer.ArticleOutcome.ok]
          ++ UCCIndexer.ArticleOutcome.err :: [UCCIndexer.ArticleOutcome.ok]))
        ).1.articles_processed = 2
      ∧ 1 ≤ (UCCIndexer.run_full_indexing
        (.ok ([UCCIndexer.ArticleOutcome.ok]
          ++ UCCIndexer.ArticleOutcome.err :: [UCCIndexer.ArticleOutcome.ok]))
        ).1.errors) :=
  ⟨claim_C1_partial_failure_run.2.1 [.ok 1 2] [.ok 3 4] 0 0
      (fun o ho => ⟨1, 2, by simpa using ho⟩)
      (fun o ho => ⟨3, 4, by simpa using ho⟩),
    claim_C1_partial_failure_run.2.2 [.ok] [.ok]
      (fun o ho => by simpa using ho)
      (fun o ho => by simpa using ho)⟩

/-- C6, counterexample: with the package search raising, the statute run is
not fatal — the enumerator falls back to titles 1–54, all 54 are processed,
the job ends `completed`, no exception reaches the caller, and nothing is
persisted through `_update_job_error`. -/
theorem claim_C6_counterexample :
    (USCodeIndexer.run_full_indexing
      { jobCreate := some "job-1", searchOutcome := .raises,
        unitOutcome := fun _ => USCodeIndexer.TitleOutcome.ok 0 0 } none).2
      = "completed"
    ∧ (USCodeIndexer.run_full_indexing
      { jobCreate := some "job-1", searchOutcome := .raises,
        unitOutcome := fun _ => USCodeIndexer.TitleOutcome.ok 0 0 } none
      ).1.titles_processed = 54
    ∧ (USCodeIndexer.start_full_indexing
        { jobCreate := some "job-1", searchOutcome := .raises,
          unitOutcome := fun _ => USCodeIndexer.TitleOutcome.ok 0 0 } none).1
      = .ok ("job-1", USCodeIndexer.run_full_indexing
          { jobCreate := some "job-1", searchOutcome := .raises,
            unitOutcome := fun _ => USCodeIndexer.TitleOutcome.ok 0 0 } none)
    ∧ (USCodeIndexer.start_full_indexing
        { jobCreate := some "job-1", searchOutcome := .raises,
          unitOutcome := fun _ => USCodeIndexer.TitleOutcome.ok 0 0 } none).2 = false := by
  refine ⟨rfl, by decide, rfl, rfl⟩

/-- C6, amended.  A job-creation failure surfaces to the caller as an
exception with nothing persisted to any job record (`current_job_id` is still
`None`); once the job exists the statute run cannot fail — in particular an
enumeration failure is absorbed inside `_get_available_titles`, which falls
back to the standard title range 1–54, and the run ends `completed`. -/
theorem claim_C6_run_level_failures :
    (∀ (env : USCodeIndexer.RunEnv) (tn : Option Nat), env.jobCreate = none →
      USCodeIndexer.start_full_indexing env tn
        = (.error "Failed to create indexing job", false))
    ∧ (∀ (env : USCodeIndexer.RunEnv) (tn : Option Nat) (j : String),
      env.jobCreate = some j →
      USCodeIndexer.start_full_indexing env tn
        = (.ok (j, USCodeIndexer.run_full_indexing env tn), false)
      ∧ (USCodeIndexer.run_full_indexing env tn).2 = "completed")
    ∧ USCodeIndexer.get_available_titles .raises
        = (USCodeIndexer.standard_title_range, 1) := by
  refine ⟨?_, ?_, rfl⟩
  · intro env tn h
    simp [USCodeIndexer.start_full_indexing, h]
  · intro env tn j h
    exact ⟨by simp [USCodeIndexer.start_full_indexing, h], us_run_full_completed env tn⟩

/-- Witness for C6 at concrete environments. -/
theorem claim_C6_run_level_failures_witness :
    USCodeIndexer.start_full_indexing
      { jobCreate := none, searchOutcome := .raises,
        unitOutcome := fun _ => USCodeIndexer.TitleOutcome.ok 0 0 } none
      = (.error "Failed to create indexing job", false) :=
  claim_C6_run_level_failures.1
    { jobCreate := none, searchOutcome := .raises,
      unitOutcome := fun _ => USCodeIndexer.TitleOutcome.ok 0 0 } none rfl

/-- C7, counterexample: in a 5-unit statute run where exactly unit 3 raises,
the final error count is 2, not 1 — `_process_title` increments
`stats.errors` once in its own handler before re-raising, and the run loop's
handler increments it again. -/
theorem claim_C7_counterexample :
    (USCodeIndexer.run_loop USCodeIndexer.initStats
      [.ok 0 0, .ok 0 0, .err 0 0, .ok 0 0, .ok 0 0]).errors = 2
    ∧ (USCodeIndexer.run_loop USCodeIndexer.initStats
      [.ok 0 0, .ok 0 0, .err 0 0, .ok 0 0, .ok 0 0]).titles_processed = 4
    ∧ ¬ ((USCodeIndexer.run_loop USCodeIndexer.initStats
      [.ok 0 0, .ok 0 0, .err 0 0, .ok 0 0, .ok 0 0]).errors = 1) :=
  ⟨rfl, rfl, by decide⟩

/-- C7, amended.  A 5-unit statute run in which exactly unit 3 raises ends
`completed` with `units_processed = 4` and `errors = 2`: the failing unit
increments the run's error counter twice (once in `_process_title`'s own
handler, once in the loop's), not once. -/
theorem claim_C7_five_unit_run :
    (∀ (env : USCodeIndexer.RunEnv) (tn : Option Nat),
      (USCodeIndexer.run_full_indexing env tn).2 = "completed")
    ∧ (∀ c1 s1 c2 s2 ec es c4 s4 c5 s5 : Nat,
      (USCodeIndexer.run_loop USCodeIndexer.initStats
        [.ok c1 s1, .ok c2 s2, .err ec es, .ok c4 s4, .ok c5 s5]).errors = 2
      ∧ (USCodeIndexer.run_loop USCodeIndexer.initStats
        [.ok c1 s1, .ok c2 s2, .err ec es, .ok c4 s4, .ok c5 s5]).titles_processed = 4) :=
  ⟨us_run_full_completed, fun _ _ _ _ _ _ _ _ _ _ => ⟨rfl, rfl⟩⟩

/-! ### Per-section failure handling (C8) -/

/-- C8, counterexample: a unit whose sections include one that raises keeps
the surviving sections, completes normally, and leaves the run's error
counter untouched — the counter is not incremented as the claim states. -/
theorem claim_C8_counterexample :
    UCCProcessor.process_article_sections
      [Except.ok "s1", Except.error "parse failure", Except.ok "s2"] = ["s1", "s2"]
    ∧ (UCCIndexer.run_loop ⟨0, 0⟩
        [UCCIndexer.outcome_of_result (UCCIndexer.process_article_result
          [Except.ok "s1", Except.error "parse failure", Except.ok "s2"])]).errors = 0
    ∧ ¬ ((UCCIndexer.run_loop ⟨0, 0⟩
        [UCCIndexer.outcome_of_result (UCCIndexer.process_article_result
          [Except.ok "s1", Except.error "parse failure", Except.ok "s2"])]).errors = 1) :=
  ⟨rfl, rfl, by decide⟩

/-- C8, amended.  A failure while processing one section is caught per
section: the section is skipped with only a log message — no error counter
exists at section level and the run's error counter is not incremented —
processing continues with the next section of the same unit, and the
exception never propagates past the unit boundary, in both processors. -/
theorem claim_C8_section_failure_handling :
    (∀ (α : Type) (rs : List (Except String α)),
      UCCProcessor.process_article_sections rs = rs.filterMap Except.toOption)
    ∧ (∀ (α : Type) (rs : List (Except String α)),
      UCCIndexer.process_article_result rs
        = Except.ok (UCCProcessor.process_article_sections rs))
    ∧ (∀ (α : Type) (rs : List (Except String α)) (st : UCCIndexer.RunStats),
      (UCCIndexer.run_loop st
        [UCCIndexer.outcome_of_result (UCCIndexer.process_article_result rs)]).errors
        = st.errors)
    ∧ (∀ (α : Type) (rs : List (Except String (Option α))),
      USCodeProcessor.extract_all_sections_loop rs
        = rs.filterMap (fun r =>
            match r with
            | .ok (some s) => some s
            | .ok none => none
            | .error _ => none)) := by
  refine ⟨?_, fun α rs => rfl, fun α rs st => rfl, ?_⟩
  · intro α rs
    induction rs with
    | nil => rfl
    | cons r rest ih =>
      cases r <;> simp [UCCProcessor.process_article_sections, Except.toOption, ih]
  · intro α rs
    induction rs with
    | nil => rfl
    | cons r rest ih =>
      rcases r with a | a
      · simp [USCodeProcessor.extract_all_sections_loop, ih]
      · cases a <;> simp [USCodeProcessor.extract_all_sections_loop, ih]

/-! ### Backend store totality (C10) -/

theorem ucc_store_subsection_total (o : USCodeIndexer.BackendOutcome) :
    ∃ b, UCCIndexer.store_subsection_data o = .ok b := by
  unfold UCCIndexer.store_subsection_data
  split
  · split <;> exact ⟨_, rfl⟩
  · exact ⟨_, rfl⟩

theorem ucc_store_definition_total (o : USCodeIndexer.BackendOutcome) :
    ∃ b, UCCIndexer.store_definition_data o = .ok b := by
  unfold UCCIndexer.store_definition_data
  split
  · split <;> exact ⟨_, rfl⟩
  · exact ⟨_, rfl⟩

theorem ucc_store_crossref_total (lo : Option USCodeIndexer.BackendOutcome)
    (co : USCodeIndexer.BackendOutcome) :
    ∃ b, UCCIndexer.store_cross_reference_data lo co = .ok b := by
  unfold UCCIndexer.store_cross_reference_data
  dsimp only
  split
  · split <;> exact ⟨_, rfl⟩
  · exact ⟨_, rfl⟩

theorem ucc_store_searchindex_total (o : USCodeIndexer.BackendOutcome) :
    ∃ b, UCCIndexer.store_search_index_data o = .ok b := by
  unfold UCCIndexer.store_search_index_data
  split
  · split <;> exact ⟨_, rfl⟩
  · exact ⟨_, rfl⟩

theorem foldlM_count_ok {β : Type} (f : β → Except String Bool)
    (hf : ∀ o, ∃ b, f o = .ok b) :
    ∀ (l : List β) (n : Nat),
      List.foldlM (fun (k : Nat) o => do
        let _ ← f o
        pure (k + 1)) n l = Except.ok (n + l.length)
  | [], _ => rfl
  | o :: rest, n => by
    obtain ⟨b, hb⟩ := hf o
    simp only [List.foldlM]
    rw [hb]
    show List.foldlM (fun (k : Nat) o => do
        let _ ← f o
        pure (k + 1)) (n + 1) rest = Except.ok (n + (rest.length + 1))
    exact (foldlM_count_ok f hf rest (n + 1)).trans (congrArg Except.ok (by omega))

theorem store_section_data_ok (env : UCCIndexer.SectionStoreEnv) (code : Nat)
    (i : String) (h : env.sectionCreate = .resp code true (some i)) (hc : code < 400) :
    UCCIndexer.store_section_data env
      = .ok (env.subsectionResps.length, env.definitionResps.length,
          env.crossRefResps.length) := by
  have hsec : UCCIndexer.make_backend_request env.sectionCreate
      = (some { success := true, dataId := some i }, 1, 0) := by
    rw [h]
    simp [UCCIndexer.make_backend_request, Nat.not_le.mpr hc]
  obtain ⟨bs, hbs⟩ := ucc_store_searchindex_total env.searchIndexResp
  unfold UCCIndexer.store_section_data
  rw [hsec,
    foldlM_count_ok UCCIndexer.store_subsection_data ucc_store_subsection_total
      env.subsectionResps 0,
    foldlM_count_ok UCCIndexer.store_definition_data ucc_store_definition_total
      env.definitionResps 0,
    foldlM_count_ok (fun p => UCCIndexer.store_cross_reference_data p.1 p.2)
      (fun p => ucc_store_crossref_total p.1 p.2) env.crossRefResps 0,
    hbs]
  show Except.ok (0 + env.subsectionResps.length, 0 + env.definitionResps.length,
      0 + env.crossRefResps.length)
    = Except.ok (env.subsectionResps.length, env.definitionResps.length,
      env.crossRefResps.length)
  simp

/-- C10: every backend store call through the orchestrators' request helper
is total at the call level — on a transport exception, a JSON-decoding
failure, or an HTTP status of 400 or above, the helper returns `None` rather
than raising; consequently each child store (subsection, definition,
cross-reference, search-index entry) always returns normally, and a section
store whose section-creation succeeds returns normally with every child
attempted, whatever the children's backend responses. -/
theorem claim_C10_store_totality :
    (USCodeIndexer.make_backend_request .transport = none
      ∧ (∀ code, USCodeIndexer.make_backend_request (.badJson code) = none)
      ∧ (∀ code success dataId, 400 ≤ code →
          USCodeIndexer.make_backend_request (.resp code success dataId) = none)
      ∧ (UCCIndexer.make_backend_request .transport).1 = none
      ∧ (∀ code, (UCCIndexer.make_backend_request (.badJson code)).1 = none)
      ∧ (∀ code success dataId, 400 ≤ code →
          (UCCIndexer.make_backend_request (.resp code success dataId)).1 = none))
    ∧ (∀ o, ∃ b, UCCIndexer.store_subsection_data o = .ok b)
    ∧ (∀ o, ∃ b, UCCIndexer.store_definition_data o = .ok b)
    ∧ (∀ lo co, ∃ b, UCCIndexer.store_cross_reference_data lo co = .ok b)
    ∧ (∀ o, ∃ b, UCCIndexer.store_search_index_data o = .ok b)
    ∧ (∀ (env : UCCIndexer.SectionStoreEnv) (code : Nat) (i : String),
        env.sectionCreate = .resp code true (some i) → code < 400 →
        UCCIndexer.store_section_data env
          = .ok (env.subsectionResps.length, env.definitionResps.length,
              env.crossRefResps.length)) := by
  refine ⟨⟨rfl, ?_, ?_, rfl, ?_, ?_⟩,
    ucc_store_subsection_total, ucc_store_definition_total,
    ucc_store_crossref_total, ucc_store_searchindex_total, store_section_data_ok⟩
  · intro code
    simp [USCodeIndexer.make_backend_request]
  · intro code success dataId h
    simp [USCodeIndexer.make_backend_request, h]
  · intro code
    simp [UCCIndexer.make_backend_request]
  · intro code success dataId h
    simp [UCCIndexer.make_backend_request, h]

/-! ### The sliding-window rate limit (C2) -/

theorem rl_issue_ge (calls : Nat) (period : ℚ) (times : List ℚ) (now slack : ℚ)
    (hs : 0 ≤ slack) :
    now ≤ (enforce_rate_limit calls period times now slack).2.1 := by
  unfold enforce_rate_limit
  dsimp only
  split
  · split
    · split
      · rename_i hsl
        dsimp only
        linarith
      · exact le_refl now
    · exact le_refl now
  · exact le_refl now

theorem rl_step (calls : Nat) (period : ℚ) (times : List ℚ) (now slack : ℚ)
    (hc : 0 < calls) (hs : 0 ≤ slack) :
    ∃ m b, now ≤ m ∧
      enforce_rate_limit calls period times now slack
        = (times.filter (fun t => m - t < period) ++ [m], m, b) := by
  unfold enforce_rate_limit
  dsimp only
  by_cases hlen : calls ≤ (times.filter (fun t => now - t < period)).length
  · rw [if_pos hlen]
    rcases hts : times.filter (fun t => now - t < period) with _ | ⟨t0, rest⟩
    · rw [hts] at hlen
      simp at hlen
      exact ((by omega : False)).elim
    · have ht0m : t0 ∈ times.filter (fun t => now - t < period) := by
        rw [hts]
        exact List.mem_cons_self t0 rest
      have ht0 : now - t0 < period := by
        simpa using (List.mem_filter.mp ht0m).2
      have hsl : 0 < period - (now - t0) + 1 := by linarith
      dsimp only
      rw [if_pos hsl]
      refine ⟨now + (period - (now - t0) + 1) + slack, true, by linarith, ?_⟩
      rw [← hts, List.filter_filter]
      have hcong : times.filter
          (fun t => decide (now + (period - (now - t0) + 1) + slack - t < period)
            && decide (now - t < period))
          = times.filter
            (fun t => now + (period - (now - t0) + 1) + slack - t < period) := by
        apply List.filter_congr
        intro t _
        by_cases h2 : now + (period - (now - t0) + 1) + slack - t < period
        · have h3 : now - t < period := by linarith
          simp [h2, h3]
        · simp [h2]
      rw [hcong]
  · rw [if_neg hlen]
    exact ⟨now, false, le_refl now, rfl⟩

theorem rl_step_len (calls : Nat) (period : ℚ) (times : List ℚ) (now slack : ℚ)
    (hc : 0 < calls) (hs : 0 ≤ slack) (hl : times.length ≤ calls) :
    (enforce_rate_limit calls period times now slack).1.length ≤ calls := by
  unfold enforce_rate_limit
  dsimp only
  by_cases hlen : calls ≤ (times.filter (fun t => now - t < period)).length
  · rw [if_pos hlen]
    rcases hts : times.filter (fun t => now - t < period) with _ | ⟨t0, rest⟩
    · rw [hts] at hlen
      simp at hlen
      omega
    · have ht0m : t0 ∈ times.filter (fun t => now - t < period) := by
        rw [hts]
        exact List.mem_cons_self t0 rest
      have ht0 : now - t0 < period := by
        simpa using (List.mem_filter.mp ht0m).2
      have hsl : 0 < period - (now - t0) + 1 := by linarith
      dsimp only
      rw [if_pos hsl]
      have ht0pb : (decide (now + (period - (now - t0) + 1) + slack - t0 < period))
          = false := by
        simp only [decide_eq_false_iff_not]
        intro h
        linarith
      have hlt : (t0 :: rest).length ≤ times.length := by
        rw [← hts]
        exact List.length_filter_le _ _
      have hr := List.length_filter_le
        (fun t => decide (now + (period - (now - t0) + 1) + slack - t < period)) rest
      simp only [List.filter_cons, ht0pb, Bool.false_eq_true, if_false,
        List.length_append, List.length_cons, List.length_nil]
      simp only [List.length_cons] at hlt
      omega
  · rw [if_neg hlen]
    simp only [List.length_append, List.length_cons, List.length_nil]
    omega

theorem rl_issues_ge (calls : Nat) (period : ℚ) :
    ∀ (cs : List (ℚ × ℚ)) (times : List ℚ) (ready : ℚ),
      RLValid calls period times ready cs →
      ∀ u ∈ rl_issues calls period times cs, ready ≤ u
  | [], _, _, _, u, hu => by simp [rl_issues] at hu
  | c :: rest, times, ready, hv, u, hu => by
    obtain ⟨h1, h2, h3⟩ := hv
    simp only [rl_issues] at hu
    rcases List.mem_cons.mp hu with h | h
    · exact h ▸ le_trans h1 (rl_issue_ge calls period times c.1 c.2 h2)
    · exact le_trans (le_trans h1 (rl_issue_ge calls period times c.1 c.2 h2))
        (rl_issues_ge calls period rest _ _ h3 u h)

theorem rl_window_bound (calls : Nat) (period T : ℚ) (hc : 0 < calls) :
    ∀ (cs : List (ℚ × ℚ)) (times : List ℚ) (ready : ℚ),
      times.length ≤ calls →
      RLValid calls period times ready cs →
      ((rl_issues calls period times cs).filter (inWindow T period)).length
        + (times.filter (fun t => T ≤ t)).length ≤ calls
  | [], times, _, hl, _ => by
    simp only [rl_issues, List.filter_nil, List.length_nil, Nat.zero_add]
    exact le_trans (List.length_filter_le _ _) hl
  | c :: rest, times, ready, hl, hv => by
    obtain ⟨h1, h2, h3⟩ := hv
    obtain ⟨m, b, hm, hstep⟩ := rl_step calls period times c.1 c.2 hc h2
    have hlen2 : (times.filter (fun t => m - t < period) ++ [m]).length ≤ calls := by
      have := rl_step_len calls period times c.1 c.2 hc h2 hl
      rw [hstep] at this
      exact this
    rw [hstep] at h3
    dsimp only at h3
    simp only [rl_issues]
    rw [hstep]
    dsimp only
    by_cases hmw : m < T + period
    · have ihapp := rl_window_bound calls period T hc rest
        (times.filter (fun t => m - t < period) ++ [m]) m hlen2 h3
      have hWt : (times.filter (fun t => m - t < period)).filter (fun t => T ≤ t)
          = times.filter (fun t => T ≤ t) := by
        rw [List.filter_filter]
        apply List.filter_congr
        intro t _
        by_cases hT : T ≤ t
        · have hmt : m - t < period := by linarith
          simp [hT, hmt]
        · simp [hT]
      rw [List.filter_append, hWt] at ihapp
      simp only [List.filter_cons, List.filter_nil, decide_eq_true_eq,
        List.length_append] at ihapp
      by_cases hTm : T ≤ m
      · have hw : inWindow T period m = true := by
          simp only [inWindow, decide_eq_true_eq]
          exact ⟨hTm, hmw⟩
        rw [if_pos hTm] at ihapp
        simp only [List.length_cons, List.length_nil] at ihapp
        simp only [List.filter_cons, hw, if_true, List.length_cons]
        omega
      · have hw : inWindow T period m = false := by
          simp only [inWindow, decide_eq_false_iff_not]
          intro h
          exact hTm h.1
        rw [if_neg hTm] at ihapp
        simp only [List.length_nil] at ihapp
        simp only [List.filter_cons, hw, Bool.false_eq_true, if_false]
        omega
    · have hTpm : T + period ≤ m := not_lt.mp hmw
      have htail := rl_issues_ge calls period rest
        (times.filter (fun t => m - t < period) ++ [m]) m h3
      have hnil : (rl_issues calls period
          (times.filter (fun t => m - t < period) ++ [m]) rest).filter
            (inWindow T period) = [] := by
        rw [List.filter_eq_nil_iff]
        intro u hu
        have hum := htail u hu
        simp only [inWindow, decide_eq_true_eq, not_and]
        intro _
        linarith
      have hw : inWindow T period m = false := by
        simp only [inWindow, decide_eq_false_iff_not]
        intro h
        linarith [h.2]
      simp only [List.filter_cons, hw, Bool.false_eq_true, if_false, hnil,
        List.length_nil, Nat.zero_add]
      exact le_trans (List.length_filter_le _ _) hl

/-- C2: over every valid call history of one client instance starting from an
empty timestamp list, at most `RATE_LIMIT_CALLS` requests are issued inside
any window `[T, T + RATE_LIMIT_PERIOD)` — 1000 per 3600 s for the
statute-API client and 30 per 60 s for the scrape client; and whenever the
pruned timestamp list is at the ceiling, the call sleeps and the request
proceeds only at `oldest + period + 1 + slack`, after the oldest recorded
timestamp has left the window plus the one-second margin. -/
theorem claim_C2_rate_limit :
    (∀ (T ready : ℚ) (cs : List (ℚ × ℚ)),
      RLValid GovInfoClient.RATE_LIMIT_CALLS GovInfoClient.RATE_LIMIT_PERIOD [] ready cs →
      ((rl_issues GovInfoClient.RATE_LIMIT_CALLS GovInfoClient.RATE_LIMIT_PERIOD
        [] cs).filter (inWindow T GovInfoClient.RATE_LIMIT_PERIOD)).length ≤ 1000)
    ∧ (∀ (T ready : ℚ) (cs : List (ℚ × ℚ)),
      RLValid UCCFetcher.RATE_LIMIT_CALLS UCCFetcher.RATE_LIMIT_PERIOD [] ready cs →
      ((rl_issues UCCFetcher.RATE_LIMIT_CALLS UCCFetcher.RATE_LIMIT_PERIOD
        [] cs).filter (inWindow T UCCFetcher.RATE_LIMIT_PERIOD)).length ≤ 30)
    ∧ (∀ (calls : Nat) (period : ℚ) (times : List ℚ) (now slack t0 : ℚ)
        (rest : List ℚ),
      0 ≤ slack →
      times.filter (fun t => now - t < period) = t0 :: rest →
      calls ≤ (t0 :: rest).length →
      enforce_rate_limit calls period times now slack
        = ((t0 :: rest).filter (fun t => t0 + period + 1 + slack - t < period)
            ++ [t0 + period + 1 + slack], t0 + period + 1 + slack, true)) := by
  refine ⟨?_, ?_, ?_⟩
  · intro T ready cs hv
    have := rl_window_bound GovInfoClient.RATE_LIMIT_CALLS
      GovInfoClient.RATE_LIMIT_PERIOD T (by decide) cs [] ready (by decide) hv
    simpa using this
  · intro T ready cs hv
    have := rl_window_bound UCCFetcher.RATE_LIMIT_CALLS
      UCCFetcher.RATE_LIMIT_PERIOD T (by decide) cs [] ready (by decide) hv
    simpa using this
  · intro calls period times now slack t0 rest hs hts hceil
    have hlen : calls ≤ (times.filter (fun t => now - t < period)).length := by
      rw [hts]
      exact hceil
    have ht0m : t0 ∈ times.filter (fun t => now - t < period) := by
      rw [hts]
      exact List.mem_cons_self t0 rest
    have ht0 : now - t0 < period := by
      simpa using (List.mem_filter.mp ht0m).2
    have hsl : 0 < period - (now - t0) + 1 := by linarith
    unfold enforce_rate_limit
    dsimp only
    rw [if_pos hlen, hts]
    dsimp only
    rw [if_pos hsl]
    have hn2 : now + (period - (now - t0) + 1) + slack = t0 + period + 1 + slack := by
      ring
    rw [hn2]

/-- Witness for C2's blocking conjunct at a concrete at-ceiling state. -/
theorem claim_C2_rate_limit_witness :
    (0 : ℚ) ≤ 0
    ∧ List.filter (fun t => (2 : ℚ) - t < 10) [0, 1] = [0, 1]
    ∧ 2 ≤ ([(0 : ℚ), 1]).length
    ∧ enforce_rate_limit 2 10 [0, 1] 2 0
        = (((0 : ℚ) :: [1]).filter (fun t => (0 : ℚ) + 10 + 1 + 0 - t < 10)
            ++ [(0 : ℚ) + 10 + 1 + 0], (0 : ℚ) + 10 + 1 + 0, true) := by
  have hts : List.filter (fun t => (2 : ℚ) - t < 10) [0, 1] = [0, 1] := by
    norm_num [List.filter_cons, decide_eq_true_eq]
  exact ⟨le_refl 0, hts, by norm_num,
    claim_C2_rate_limit.2.2 2 10 [0, 1] 2 0 0 [1] (le_refl 0) hts (by norm_num)⟩

/-! ### TTL cache behaviour (C5) -/

/-- C5: for either client with caching enabled, after a successful fetch the
response is cached with expiry one TTL after the recorded request time
(1 hour for the statute-API client, 6 hours for the scrape client); a second
fetch of the same locator before expiry returns the cached content, issues no
network call, and leaves the whole client state — including the rate
limiter's timestamp window — unchanged; a fetch at or after expiry issues a
fresh network call. -/
theorem claim_C5_cache_ttl :
    (∀ (st : GovInfoClient.GIState) (key : String) (now slack now1 slack1 : ℚ)
        (code : Nat) (ctJson : Bool) (body : String)
        (resp1 : GovInfoClient.GIResponse),
      GovInfoClient.is_cache_valid st key now = false →
      code ≠ 429 → code ≠ 401 → code ≠ 404 → code < 400 →
      (let rl := enforce_rate_limit GovInfoClient.RATE_LIMIT_CALLS
          GovInfoClient.RATE_LIMIT_PERIOD st.request_times now slack
       let data := if ctJson then GovInfoClient.GIData.json body
         else GovInfoClient.GIData.xml body
       let st2 : GovInfoClient.GIState :=
         { cache := (key, data) :: st.cache,
           cacheTtl := (key, rl.2.1 + GovInfoClient.cache_duration) :: st.cacheTtl,
           request_times := rl.1 }
       GovInfoClient.make_request st key true now slack (.status code ctJson body)
         = (.ok data, st2, true)
       ∧ (now1 < rl.2.1 + GovInfoClient.cache_duration →
          GovInfoClient.make_request st2 key true now1 slack1 resp1
            = (.ok data, st2, false))
       ∧ (rl.2.1 + GovInfoClient.cache_duration ≤ now1 →
          (GovInfoClient.make_request st2 key true now1 slack1 resp1).2.2 = true)))
    ∧ (∀ (st : UCCFetcher.FetchState) (url : String) (now slack now1 slack1 : ℚ)
        (code : Nat) (body : String) (resp1 : UCCFetcher.FetchResponse),
      st.hasSession = true →
      UCCFetcher.is_cache_valid st (UCCFetcher.get_cache_key url) now = false →
      code < 400 →
      (let rl := enforce_rate_limit UCCFetcher.RATE_LIMIT_CALLS
          UCCFetcher.RATE_LIMIT_PERIOD st.request_times now slack
       let st2 : UCCFetcher.FetchState :=
         { cache := (UCCFetcher.get_cache_key url, body) :: st.cache,
           cacheTtl := (UCCFetcher.get_cache_key url,
             rl.2.1 + UCCFetcher.cache_duration) :: st.cacheTtl,
           request_times := rl.1,
           hasSession := st.hasSession }
       UCCFetcher.fetch_url st url true now slack (.status code body)
         = (.ok body, st2, true)
       ∧ (now1 < rl.2.1 + UCCFetcher.cache_duration →
          UCCFetcher.fetch_url st2 url true now1 slack1 resp1 = (.ok body, st2, false))
       ∧ (rl.2.1 + UCCFetcher.cache_duration ≤ now1 →
          (UCCFetcher.fetch_url st2 url true now1 slack1 resp1).2.2 = true))) := by
  constructor
  · intro st key now slack now1 slack1 code ctJson body resp1 hmiss h429 h401 h404 hlt
    refine ⟨?_, ?_, ?_⟩
    · simp only [GovInfoClient.make_request, hmiss, Bool.and_false,
        Bool.false_eq_true, if_false]
      rw [if_neg h429, if_neg h401, if_neg h404, if_neg (by omega : ¬ 400 ≤ code)]
      rfl
    · intro httl
      have hval : GovInfoClient.is_cache_valid
          { cache := (key, if ctJson then GovInfoClient.GIData.json body
              else GovInfoClient.GIData.xml body) :: st.cache,
            cacheTtl := (key, (enforce_rate_limit GovInfoClient.RATE_LIMIT_CALLS
                GovInfoClient.RATE_LIMIT_PERIOD st.request_times now slack).2.1
              + GovInfoClient.cache_duration) :: st.cacheTtl,
            request_times := (enforce_rate_limit GovInfoClient.RATE_LIMIT_CALLS
              GovInfoClient.RATE_LIMIT_PERIOD st.request_times now slack).1 }
          key now1 = true := by
        simp [GovInfoClient.is_cache_valid, List.lookup, httl]
      simp [GovInfoClient.make_request, hval, List.lookup]
    · intro httl
      have hval : GovInfoClient.is_cache_valid
          { cache := (key, if ctJson then GovInfoClient.GIData.json body
              else GovInfoClient.GIData.xml body) :: st.cache,
            cacheTtl := (key, (enforce_rate_limit GovInfoClient.RATE_LIMIT_CALLS
                GovInfoClient.RATE_LIMIT_PERIOD st.request_times now slack).2.1
              + GovInfoClient.cache_duration) :: st.cacheTtl,
            request_times := (enforce_rate_limit GovInfoClient.RATE_LIMIT_CALLS
              GovInfoClient.RATE_LIMIT_PERIOD st.request_times now slack).1 }
          key now1 = false := by
        simp [GovInfoClient.is_cache_valid, List.lookup, not_lt.mpr httl]
      cases resp1 with
      | transport => simp [GovInfoClient.make_request, hval]
      | status code1 ct1 b1 =>
        simp only [GovInfoClient.make_request, hval, Bool.and_false,
          Bool.false_eq_true, if_false]
        split
        · rfl
        · split
          · rfl
          · split
            · rfl
            · split
              · rfl
              · rfl
  · intro st url now slack now1 slack1 code body resp1 hsess hmiss hlt
    refine ⟨?_, ?_, ?_⟩
    · simp only [UCCFetcher.fetch_url, hmiss, Bool.and_false,
        Bool.false_eq_true, if_false]
      rw [hsess]
      simp only [Bool.not_true, Bool.false_eq_true, if_false]
      rw [if_neg (by omega : ¬ 400 ≤ code)]
      rfl
    · intro httl
      have hval : UCCFetcher.is_cache_valid
          { cache := (UCCFetcher.get_cache_key url, body) :: st.cache,
            cacheTtl := (UCCFetcher.get_cache_key url,
              (enforce_rate_limit UCCFetcher.RATE_LIMIT_CALLS
                UCCFetcher.RATE_LIMIT_PERIOD st.request_times now slack).2.1
              + UCCFetcher.cache_duration) :: st.cacheTtl,
            request_times := (enforce_rate_limit UCCFetcher.RATE_LIMIT_CALLS
              UCCFetcher.RATE_LIMIT_PERIOD st.request_times now slack).1,
            hasSession := st.hasSession }
          (UCCFetcher.get_cache_key url) now1 = true := by
        simp [UCCFetcher.is_cache_valid, List.lookup, httl]
      simp [UCCFetcher.fetch_url, hval, List.lookup]
    · intro httl
      have hval : UCCFetcher.is_cache_valid
          { cache := (UCCFetcher.get_cache_key url, body) :: st.cache,
            cacheTtl := (UCCFetcher.get_cache_key url,
              (enforce_rate_limit UCCFetcher.RATE_LIMIT_CALLS
                UCCFetcher.RATE_LIMIT_PERIOD st.request_times now slack).2.1
              + UCCFetcher.cache_duration) :: st.cacheTtl,
            request_times := (enforce_rate_limit UCCFetcher.RATE_LIMIT_CALLS
              UCCFetcher.RATE_LIMIT_PERIOD st.request_times now slack).1,
            hasSession := st.hasSession }
          (UCCFetcher.get_cache_key url) now1 = false := by
        simp [UCCFetcher.is_cache_valid, List.lookup, not_lt.mpr httl]
      rw [hsess] at hval
      cases resp1 with
      | transport =>
        simp [UCCFetcher.fetch_url, hval, hsess]
      | status code1 b1 =>
        simp only [UCCFetcher.fetch_url, hsess, hval, Bool.and_false,
          Bool.false_eq_true, if_false, Bool.not_true]
        split
        · rfl
        · rfl

/-- Witness for C5 at a concrete fresh statute-API client. -/
theorem claim_C5_cache_ttl_witness :
    GovInfoClient.make_request
      { cache := [("k", GovInfoClient.GIData.json "b")],
        cacheTtl := [("k", (enforce_rate_limit GovInfoClient.RATE_LIMIT_CALLS
            GovInfoClient.RATE_LIMIT_PERIOD ([] : List ℚ) 0 0).2.1
          + GovInfoClient.cache_duration)],
        request_times := (enforce_rate_limit GovInfoClient.RATE_LIMIT_CALLS
          GovInfoClient.RATE_LIMIT_PERIOD ([] : List ℚ) 0 0).1 }
      "k" true 1 0 .transport
      = (.ok (GovInfoClient.GIData.json "b"),
        { cache := [("k", GovInfoClient.GIData.json "b")],
          cacheTtl := [("k", (enforce_rate_limit GovInfoClient.RATE_LIMIT_CALLS
              GovInfoClient.RATE_LIMIT_PERIOD ([] : List ℚ) 0 0).2.1
            + GovInfoClient.cache_duration)],
          request_times := (enforce_rate_limit GovInfoClient.RATE_LIMIT_CALLS
            GovInfoClient.RATE_LIMIT_PERIOD ([] : List ℚ) 0 0).1 },
        false) :=
  (claim_C5_cache_ttl.1 { cache := [], cacheTtl := [], request_times := [] }
      "k" 0 0 1 0 200 true "b" .transport rfl (by decide) (by decide) (by decide)
      (by decide)).2.1
    (show (1 : ℚ) < 0 + GovInfoClient.cache_duration by
      norm_num [GovInfoClient.cache_duration])

/-! ### Deterministic processing and citation shape (C4) -/

set_option maxRecDepth 100000 in
/-- C4, counterexample: statute-corpus keyword extraction is not
deterministic across runs.  `_extract_keywords` iterates
`set(legal_terms)`, whose order varies with the interpreter's hash seed;
any run's order is some permutation of the distinct matched terms, and
`List.reverse` of the first-occurrence order is such a permutation.  On a
section whose text matches 7 keyword categories and all 20 term-pattern
words, the 27 collected keywords are truncated by `[:20]`, so two valid
set orders yield different keyword lists — and even different keyword
sets: `shall` survives under one order and is truncated away under the
other.  The divergence reaches the processed record's `keywords` field for
identical raw section input. -/
theorem claim_C4_counterexample :
    USCodeProcessor.extract_keywords id
        "shall may must required prohibited unlawful penalty fine imprisonment liability damages jurisdiction enforcement compliance violation regulation definition includes means term"
      ≠ USCodeProcessor.extract_keywords List.reverse
        "shall may must required prohibited unlawful penalty fine imprisonment liability damages jurisdiction enforcement compliance violation regulation definition includes means term"
    ∧ "shall" ∈ USCodeProcessor.extract_keywords id
        "shall may must required prohibited unlawful penalty fine imprisonment liability damages jurisdiction enforcement compliance violation regulation definition includes means term"
    ∧ "shall" ∉ USCodeProcessor.extract_keywords List.reverse
        "shall may must required prohibited unlawful penalty fine imprisonment liability damages jurisdiction enforcement compliance violation regulation definition includes means term"
    ∧ (USCodeProcessor.process_section_element id
        (.el "section" [("number", "1")]
          [.txt "shall may must required prohibited unlawful penalty fine imprisonment liability damages jurisdiction enforcement compliance violation regulation definition includes means term"])
        [] 1 none 0).map (fun s => s.keywords)
      ≠ (USCodeProcessor.process_section_element List.reverse
        (.el "section" [("number", "1")]
          [.txt "shall may must required prohibited unlawful penalty fine imprisonment liability damages jurisdiction enforcement compliance violation regulation definition includes means term"])
        [] 1 none 0).map (fun s => s.keywords) := by
  refine ⟨by decide, by decide, by decide, by decide⟩

/-- C4, amended: re-processing identical raw section input yields identical
citation, clean text and definitions unconditionally — neither depends on
the `datetime.now()` reading (which flows only into `last_modified`) nor on
the interpreter's set-iteration order — and identical keywords within one
interpreter session, where the set order (here an explicit parameter) is
fixed; across sessions the statute-corpus keyword list, and via the
`keywords[:20]` truncation even the keyword set, can differ on identical
input.  The citation is the pure image of the unit and section numbers:
`"{title} USC {section}"` for the statute corpus and
`"UCC {article}-{section}"` for the commercial corpus. -/
theorem claim_C4_determinism :
    (∀ (setIter1 setIter2 : List String → List String) (e : USCodeProcessor.XNode)
        (ancestors : List USCodeProcessor.XNode) (t : Nat) (pid : Option String)
        (n1 n2 : ℚ),
      (USCodeProcessor.process_section_element setIter1 e ancestors t pid n1).map
          (fun s => (s.citation, s.clean_text))
        = (USCodeProcessor.process_section_element setIter2 e ancestors t pid n2).map
          (fun s => (s.citation, s.clean_text)))
    ∧
    (∀ (setIter : List String → List String) (e : USCodeProcessor.XNode)
        (ancestors : List USCodeProcessor.XNode) (t : Nat) (pid : Option String)
        (n1 n2 : ℚ),
      (USCodeProcessor.process_section_element setIter e ancestors t pid n1).map
          (fun s => (s.citation, s.clean_text, s.keywords))
        = (USCodeProcessor.process_section_element setIter e ancestors t pid n2).map
          (fun s => (s.citation, s.clean_text, s.keywords)))
    ∧ (∀ (setIter : List String → List String) (e : USCodeProcessor.XNode)
        (ancestors : List USCodeProcessor.XNode) (t : Nat) (pid : Option String)
        (now : ℚ),
      (USCodeProcessor.process_section_element setIter e ancestors t pid now).map
          (fun s => s.citation)
        = (USCodeProcessor.process_section_element setIter e ancestors t pid now).map
          (fun s => toString t ++ " USC " ++ s.section_number))
    ∧ (∀ (parse : String → String) (sd : UCCProcessor.SectionData) (n1 n2 : ℚ),
      ((UCCProcessor.process_section_content parse sd n1).citation,
        (UCCProcessor.process_section_content parse sd n1).clean_text,
        (UCCProcessor.process_section_content parse sd n1).definitions,
        (UCCProcessor.process_section_content parse sd n1).keywords)
        = ((UCCProcessor.process_section_content parse sd n2).citation,
          (UCCProcessor.process_section_content parse sd n2).clean_text,
          (UCCProcessor.process_section_content parse sd n2).definitions,
          (UCCProcessor.process_section_content parse sd n2).keywords))
    ∧ (∀ (parse : String → String) (sd : UCCProcessor.SectionData) (now : ℚ),
      (UCCProcessor.process_section_content parse sd now).citation = sd.citation)
    ∧ (∀ url, UCCFetcher.fetch_section_citation url
        = (UCCFetcher.parse_section_url url).map
          (fun p => "UCC " ++ p.1 ++ "-" ++ p.2)) := by
  refine ⟨?_, ?_, ?_, fun parse sd n1 n2 => rfl, fun parse sd now => rfl, fun url => rfl⟩
  · intro setIter1 setIter2 e ancestors t pid n1 n2
    cases h : USCodeProcessor.extract_element_number e <;>
      simp [USCodeProcessor.process_section_element, h]
  · intro setIter e ancestors t pid n1 n2
    cases h : USCodeProcessor.extract_element_number e <;>
      simp [USCodeProcessor.process_section_element, h]
  · intro setIter e ancestors t pid now
    cases h : USCodeProcessor.extract_element_number e <;>
      simp [USCodeProcessor.process_section_element, h]

/-- Witness for C10: a section store whose children all fail at the backend
still returns normally, with every child attempted. -/
theorem claim_C10_store_totality_witness :
    UCCIndexer.store_section_data
      { partLookup := some .transport,
        sectionCreate := .resp 200 true (some "sec-1"),
        subsectionResps := [.transport, .resp 500 false none],
        definitionResps := [.badJson 200],
        crossRefResps := [(some .transport, .resp 404 false none)],
        searchIndexResp := .transport }
      = .ok (2, 1, 1) :=
  claim_C10_store_totality.2.2.2.2.2
    { partLookup := some .transport,
      sectionCreate := .resp 200 true (some "sec-1"),
      subsectionResps := [.transport, .resp 500 false none],
      definitionResps := [.badJson 200],
      crossRefResps := [(some .transport, .resp 404 false none)],
      searchIndexResp := .transport }
    200 "sec-1" rfl (by decide)

end Spec2Proof
